import Mathlib

/-!
# Verification of the OData → MCP tool-generation core

This file gives a shallow embedding, in Lean 4, of the core components of the
`mcp-nest` OData/MCP bridge:

* the tool generator (`src/mcp-nest/src/system/services/tool-generator.service.ts`):
  operation expansion, tool-name synthesis, the service-ID deriver, the
  Edm → JSON-Schema type mapper, and the per-entity-set tool builders;
* the query-execution bridge (`src/mcp-nest/src/system/services/universal-system-client.service.ts`,
  `executeQuery`): query-parameter building and v2/v4 response normalization.

The TypeScript source is translated function by function.  JavaScript-specific
behaviour is modelled explicitly:

* optional (`?:`) fields become `Option`;
* JavaScript truthiness tests (`if (x)`) become explicit `jsTruthy…` checks
  (`undefined`/`null`/`0`/`""`/`false` are falsy, objects and arrays — also
  empty ones — are truthy);
* JavaScript objects used as string-keyed records become insertion-ordered
  association lists: assigning to an existing key updates the value in place
  (keeping the key's original position), assigning a fresh key appends it,
  matching `Object.keys` enumeration order for non-integer-like string keys;
* strings are treated as sequences of characters (`List Char`); lengths count
  characters (the source counts UTF-16 code units — the two coincide on the
  Basic Multilingual Plane);
* JSON numbers are modelled as rationals (`ℚ`); `parseInt` is modelled on
  string and number inputs, with unparsable inputs (JavaScript `NaN`) modelled
  as an absent result.
-/

namespace McpNest

/-! ## JavaScript primitives -/

/-- Truthiness of an optional string (`undefined` and `""` are falsy). -/
def jsTruthyStr : Option String → Bool
  | some s => s ≠ ""
  | none => false

/-- Truthiness of an optional number (`undefined` and `0` are falsy). -/
def jsTruthyInt : Option Int → Bool
  | some n => n ≠ 0
  | none => false

/-- Truthiness of an optional boolean (`undefined` and `false` are falsy). -/
def jsTruthyBool : Option Bool → Bool
  | some b => b
  | none => false

/-- The character class `[A-Za-z0-9_]` of the source's sanitizing regexes
(`Char.isAlphanum` in Lean is ASCII-only, exactly like the regex class). -/
def isWordChar (c : Char) : Bool :=
  c.isAlphanum || c = '_'

/-- `s.replace(/[^a-zA-Z0-9_]/g, '_')`: every character outside
`[A-Za-z0-9_]` is replaced by an underscore. -/
def sanitizeWordChars (cs : List Char) : List Char :=
  cs.map (fun c => if isWordChar c then c else '_')

/-- `s.replace(/_+/g, '_')`: every maximal run of underscores collapses to a
single underscore. -/
def collapseUnderscores (cs : List Char) : List Char :=
  cs.foldr (fun c acc => if c = '_' ∧ acc.head? = some '_' then acc else c :: acc) []

/-- Drop a single leading underscore, if any. -/
def dropOneLeadingUnderscore (cs : List Char) : List Char :=
  match cs with
  | c :: t => if c = '_' then t else c :: t
  | [] => []

/-- `s.replace(/^_|_$/g, '')`: removes one leading and one trailing
underscore (the anchors each match at most once). -/
def trimUnderscoreEnds (cs : List Char) : List Char :=
  (dropOneLeadingUnderscore (dropOneLeadingUnderscore cs).reverse).reverse

/-- `s.substring(0, len)` for an integer `len`: a negative bound clamps to `0`,
a bound beyond the length clamps to the length. -/
def jsSubstringTo (cs : List Char) (len : Int) : List Char :=
  cs.take len.toNat

/-! ## Insertion-ordered string-keyed records

JavaScript object assignment `obj[k] = v` updates an existing key in place
(keeping its original position in `Object.keys`) and appends a fresh key. -/

/-- Assign `k := v` in an insertion-ordered record. -/
def setKey {α : Type} : List (String × α) → String → α → List (String × α)
  | [], k, v => [(k, v)]
  | (k', v') :: rest, k, v =>
      if k' = k then (k', v) :: rest else (k', v') :: setKey rest k v

/-- The keys of a record, in `Object.keys` enumeration order. -/
def recordKeys {α : Type} (m : List (String × α)) : List String :=
  m.map Prod.fst

/-- Object-spread merge `{ ...a, ...b }`: every entry of `b` is assigned into
`a` in order. -/
def mergeRecords {α : Type} (a b : List (String × α)) : List (String × α) :=
  b.foldl (fun m kv => setKey m kv.1 kv.2) a

/-- First-occurrence deduplication with an accumulator of already-seen keys
(the enumeration order of keys inserted repeatedly into a JavaScript object). -/
def dedupFirstAux (seen : List String) : List String → List String
  | [] => []
  | k :: rest =>
      if k ∈ seen then dedupFirstAux seen rest
      else k :: dedupFirstAux (k :: seen) rest

/-- Keep the first occurrence of every key, dropping later duplicates. -/
def dedupFirst (l : List String) : List String :=
  dedupFirstAux [] l

/-! ## JSON values -/

/-- JSON values as delivered by the HTTP layer (numbers as rationals). -/
inductive Json where
  | null : Json
  | bool : Bool → Json
  | num : ℚ → Json
  | str : String → Json
  | arr : List Json → Json
  | obj : List (String × Json) → Json

/-- Truthiness of a JSON value: `null`, `false`, `0` and `""` are falsy;
arrays and objects (even empty ones) are truthy. -/
def jsTruthyJson : Json → Bool
  | .null => false
  | .bool b => b
  | .num q => q ≠ 0
  | .str s => s ≠ ""
  | .arr _ => true
  | .obj _ => true

/-- Property access `j[key]` on a JSON value: `undefined` (`none`) unless `j`
is an object with that key. -/
def jget (j : Json) (key : String) : Option Json :=
  match j with
  | .obj fields => fields.lookup key
  | _ => none

/-- Truthiness of a possibly-absent JSON value. -/
def jsTruthyJsonOpt : Option Json → Bool
  | some j => jsTruthyJson j
  | none => false

/-- `parseInt` on a string: optional leading spaces and sign, then leading
decimal digits; no digits means `NaN`, modelled as `none`. -/
def jsParseIntStr (s : String) : Option Int :=
  let cs := s.data.dropWhile (· = ' ')
  let (neg, cs) : Bool × List Char :=
    match cs with
    | '-' :: t => (true, t)
    | '+' :: t => (false, t)
    | l => (false, l)
  let digits := cs.takeWhile Char.isDigit
  if digits.isEmpty then none
  else
    let n : Nat := digits.foldl (fun acc c => 10 * acc + (c.toNat - '0'.toNat)) 0
    some (if neg then -(n : Int) else (n : Int))

/-- `parseInt(v)` on a JSON value, via JavaScript's string coercion:
strings are parsed directly, numbers round-trip through their decimal
rendering (truncation toward zero); all other inputs are modelled as `NaN`
(`none`). -/
def jsParseIntJson : Json → Option Int
  | .str s => jsParseIntStr s
  | .num q => some (if q ≥ 0 then q.floor else -((-q).floor))
  | _ => none

end McpNest

namespace McpNest

/-! ## Data model (`system.types.ts`) -/

/-- `ODataProperty` (`system.types.ts`): a parsed `<Property>`.  Optional
TypeScript fields become `Option`. -/
structure ODataProperty where
  name : String
  type : String
  nullable : Bool
  maxLength : Option Int := none
  precision : Option Int := none
  scale : Option Int := none
  defaultValue : Option Json := none
  isKey : Option Bool := none

/-- `ODataParameter` (`system.types.ts`): a function/action parameter. -/
structure ODataParameter where
  name : String
  type : String
  nullable : Bool
  mode : Option String := none

/-- `ODataEntity` (`system.types.ts`).  The source's `namespace` field is
named `nspace` here (`namespace` is a Lean keyword); the
`navigationProperties` field is never read by the embedded components and is
omitted. -/
structure ODataEntity where
  name : String
  nspace : Option String := none
  properties : List ODataProperty
  keyProperties : List String

/-- `ODataEntitySet` (`system.types.ts`): capability flags are optional
booleans, tested by truthiness in the source. -/
structure ODataEntitySet where
  name : String
  entityType : String
  creatable : Option Bool := none
  updatable : Option Bool := none
  deletable : Option Bool := none
  searchable : Option Bool := none
  countable : Option Bool := none

/-- `ODataFunction` (`system.types.ts`). -/
structure ODataFunction where
  name : String
  returnType : Option String := none
  parameters : List ODataParameter
  httpMethod : Option String := none

/-- `ODataAction` (`system.types.ts`). -/
structure ODataAction where
  name : String
  returnType : Option String := none
  parameters : List ODataParameter

/-- `ODataServiceMetadata` (`system.types.ts`). -/
structure ODataServiceMetadata where
  entities : List ODataEntity
  entitySets : List ODataEntitySet
  functions : List ODataFunction
  actions : List ODataAction
  version : Option String := none
  raw : Option String := none

/-- `ODataService` (`system.types.ts`). -/
structure ODataService where
  id : String
  name : String
  title : Option String := none
  description : Option String := none
  version : Option String := none
  url : String
  metadata : Option ODataServiceMetadata := none

/-- `SystemConfig` (`system.types.ts`), restricted to the fields the tool
generator can reach (it only ever logs `id`; credentials and transport
settings are external collaborators). -/
structure SystemConfig where
  id : String
  name : String
  baseUrl : String

/-- `ToolGenerationConfig` (`tool-generator.service.ts`).  The source's
`toolPrefix`/`toolPostfix` options are named `toolPfx`/`toolSfx` here;
`maxToolNameLength` is a TypeScript `number`, modelled as `Int`. -/
structure ToolGenerationConfig where
  enabledOperations : List String
  toolPfx : Option String := none
  toolSfx : Option String := none
  useServiceId : Bool
  shrinkNames : Bool
  maxToolNameLength : Int
  claudeCodeFriendly : Bool

/-- `ToolOperation` (`system.types.ts`). -/
inductive ToolOperation where
  | SERVICE_INFO | FILTER | COUNT | SEARCH | GET | CREATE | UPDATE | DELETE
  | FUNCTION | ACTION
deriving DecidableEq

/-- Schema of the items of an array-typed JSON-Schema fragment, as produced by
the generator (always `{ type: 'string' }`, optionally with an `enum`). -/
structure ItemSchema where
  type : String
  enum : Option (List String) := none
deriving DecidableEq

/-- A JSON-Schema fragment as produced by the tool generator.  Each field is
present exactly when the source assigns the corresponding object key. -/
structure JsonSchema where
  description : Option String := none
  type : String
  maxLength : Option Int := none
  multipleOf : Option ℚ := none
  minimum : Option Int := none
  enum : Option (List String) := none
  items : Option ItemSchema := none
  default : Option Json := none

/-- The `inputSchema` of a generated tool. -/
structure InputSchema where
  type : String
  properties : List (String × JsonSchema)
  required : List String

/-- `GeneratedTool` (`system.types.ts`). -/
structure GeneratedTool where
  name : String
  description : String
  operation : ToolOperation
  entitySet : Option String := none
  functionName : Option String := none
  inputSchema : InputSchema
  handler : String

/-- The duck-typed `property?` argument of `mapODataTypeToJsonSchema`, which
is fed both `ODataProperty` and `ODataParameter` values. -/
structure PropertyLike where
  name : String
  maxLength : Option Int := none
  precision : Option Int := none
  scale : Option Int := none
  defaultValue : Option Json := none

/-- View an `ODataProperty` as the type mapper's duck-typed argument. -/
def ODataProperty.toLike (p : ODataProperty) : PropertyLike :=
  { name := p.name, maxLength := p.maxLength, precision := p.precision,
    scale := p.scale, defaultValue := p.defaultValue }

/-- View an `ODataParameter` as the type mapper's duck-typed argument (it has
no `maxLength`/`precision`/`scale`/`defaultValue` fields, so property access
on them yields `undefined`). -/
def ODataParameter.toLike (p : ODataParameter) : PropertyLike :=
  { name := p.name }

/-! ## Type mapper (`mapODataTypeToJsonSchema`, `tool-generator.service.ts` 563–610) -/

/-- `Math.pow(10, e)` for an integer exponent `e`, as an exact rational. -/
def jsPow10 (e : Int) : ℚ :=
  if e ≥ 0 then ((10 : ℚ) ^ e.toNat) else 1 / (10 : ℚ) ^ (-e).toNat

/-- The exponent `-property.scale || 0`: `-scale` when `scale` is present and
nonzero (`-0` is falsy in JavaScript), otherwise `0`. -/
def jsNegScaleOrZero : Option Int → Int
  | some s => if -s = 0 then 0 else -s
  | none => 0

/-- `mapODataTypeToJsonSchema(odataType, property?)`
(`tool-generator.service.ts` 563–610): the Edm → JSON-Schema mapping.
`description` is set from a truthy `property?.name`; `maxLength` is copied
for `Edm.String` when truthy; `multipleOf = Math.pow(10, -scale || 0)` is set
for the three floating types when `property?.precision` is truthy; a present
`defaultValue` (even a falsy one) is attached as `default`. -/
def mapODataTypeToJsonSchema (odataType : String) (property : Option PropertyLike) :
    JsonSchema :=
  let descr : Option String :=
    match property with
    | some p => if p.name ≠ "" then some (p.name ++ " property") else none
    | none => none
  let base : JsonSchema :=
    if odataType = "Edm.String" then
      { description := descr, type := "string",
        maxLength :=
          match property with
          | some p => if jsTruthyInt p.maxLength then p.maxLength else none
          | none => none }
    else if odataType ∈ ["Edm.Int16", "Edm.Int32", "Edm.Int64", "Edm.Byte", "Edm.SByte"] then
      { description := descr, type := "integer" }
    else if odataType ∈ ["Edm.Single", "Edm.Double", "Edm.Decimal"] then
      { description := descr, type := "number",
        multipleOf :=
          match property with
          | some p =>
              if jsTruthyInt p.precision then some (jsPow10 (jsNegScaleOrZero p.scale))
              else none
          | none => none }
    else if odataType = "Edm.Boolean" then
      { description := descr, type := "boolean" }
    else if odataType ∈ ["Edm.DateTime", "Edm.DateTimeOffset", "Edm.Time", "Edm.Guid", "Edm.Binary"] then
      { description := descr, type := "string" }
    else
      { description := descr, type := "string" }
  match property with
  | some p =>
      match p.defaultValue with
      | some v => { base with default := some v }
      | none => base
  | none => base

end McpNest

namespace McpNest

/-! ## Service-ID deriver (`extractServiceId`, `tool-generator.service.ts` 408–454)

The three regexes of the source are implemented as direct scanners over
character lists with JavaScript regex semantics: leftmost match start, greedy
quantifiers with backtracking. -/

/-- `[A-Z]`. -/
def isUpperAZ (c : Char) : Bool := 'A' ≤ c ∧ c ≤ 'Z'

/-- `[A-Z0-9_]`, the body class of the SAP service-name pattern. -/
def isSapBodyChar (c : Char) : Bool := isUpperAZ c || c.isDigit || c = '_'

/-- `[A-Za-z]`. -/
def isAsciiLetter (c : Char) : Bool := c.isAlpha

/-- The prefix of `l` extending through the *last* occurrence of `_SRV`
(`none` when `l` has no such occurrence).  This is the greedy backtracking
behaviour of `[A-Z0-9_]*_SRV`: the quantifier keeps as many characters as
still allow the literal `_SRV` to follow. -/
def capThroughLastSRV : List Char → Option (List Char)
  | [] => none
  | c :: rest =>
      match capThroughLastSRV rest with
      | some r => some (c :: r)
      | none =>
          if (c :: rest).take 4 = ['_', 'S', 'R', 'V'] then some ['_', 'S', 'R', 'V']
          else none

/-- Attempt the SAP pattern `([A-Z][A-Z0-9_]*_SRV)` at the position right
after a `/`.  The capture is the leading uppercase letter followed by the
class run up to and including the last `_SRV` inside the maximal run. -/
def sapCaptureAt : List Char → Option (List Char)
  | [] => none
  | c :: rest =>
      if isUpperAZ c then
        (capThroughLastSRV (rest.takeWhile isSapBodyChar)).map (fun r => c :: r)
      else none

/-- `serviceUrl.match(/\/([A-Z][A-Z0-9_]*_SRV)/)`: the capture of the leftmost
match, scanning every `/` in the string. -/
def sapMatch : List Char → Option (List Char)
  | [] => none
  | c :: rest =>
      if c = '/' then
        match sapCaptureAt rest with
        | some cap => some cap
        | none => sapMatch rest
      else sapMatch rest

/-- Attempt `([A-Za-z][A-Za-z0-9_]+)\.svc` right after a `/`: a letter, then a
maximal nonempty run of word characters, then the literal `.svc` (no
backtracking can help, because `.` is outside the run's class). -/
def svcCaptureAt : List Char → Option (List Char)
  | [] => none
  | c :: rest =>
      if isAsciiLetter c then
        let run := rest.takeWhile isWordChar
        if run.length ≥ 1 ∧ (rest.drop run.length).take 4 = ['.', 's', 'v', 'c'] then
          some (c :: run)
        else none
      else none

/-- `serviceUrl.match(/\/([A-Za-z][A-Za-z0-9_]+)\.svc/)`: the capture of the
leftmost match. -/
def svcMatch : List Char → Option (List Char)
  | [] => none
  | c :: rest =>
      if c = '/' then
        match svcCaptureAt rest with
        | some cap => some cap
        | none => svcMatch rest
      else svcMatch rest

/-- Attempt `([A-Za-z][A-Za-z0-9_]+)` right after the literal `/odata/`:
a letter followed by a maximal nonempty run of word characters. -/
def odataCaptureAt : List Char → Option (List Char)
  | [] => none
  | c :: rest =>
      if isAsciiLetter c then
        let run := rest.takeWhile isWordChar
        if run.length ≥ 1 then some (c :: run) else none
      else none

/-- `serviceUrl.match(/\/odata\/([A-Za-z][A-Za-z0-9_]+)/)`: the capture of the
leftmost match. -/
def odataMatch : List Char → Option (List Char)
  | [] => none
  | c :: rest =>
      (if (c :: rest).take 7 = "/odata/".data then odataCaptureAt ((c :: rest).drop 7)
       else none).orElse (fun _ => odataMatch rest)

/-- The `(\d+)` tail of the compact sub-pattern: the maximal leading digit
run, required to be nonempty. -/
def compactDigits1 (m : List Char) : Option (List Char) :=
  let ds := m.takeWhile Char.isDigit
  if ds.isEmpty then none else some ds

/-- The `_?(\d+)` tail of the compact sub-pattern at a fixed position:
greedily try consuming one underscore first. -/
def compactFinish (l : List Char) : Option (List Char) :=
  match l with
  | c :: t => if c = '_' then (compactDigits1 t).orElse (fun _ => compactDigits1 l)
              else compactDigits1 l
  | [] => compactDigits1 []

/-- The compact sub-pattern body after the leading letter:
`[A-Z]*_?(\d+)` with greedy backtracking — consume uppercase letters as long
as possible, then an optional underscore, then require at least one digit;
the digit-group capture is the maximal digit run at the final position. -/
def compactAux : List Char → Option (List Char)
  | [] => none
  | c :: rest =>
      if isUpperAZ c then (compactAux rest).orElse (fun _ => compactFinish (c :: rest))
      else compactFinish (c :: rest)

/-- `svcName.match(/^([A-Z])[A-Z]*_?(\d+)/)`: on success, the concatenation
`letter ++ digitGroup` the source returns. -/
def compactMatch : List Char → Option (List Char)
  | [] => none
  | c :: rest =>
      if isUpperAZ c then (compactAux rest).map (fun ds => c :: ds)
      else none

/-- The noise tokens excluded by the last-segment fallback. -/
def noiseSegments : List String := ["api", "odata", "sap", "opu"]

/-- `extractServiceId(serviceUrl)` (`tool-generator.service.ts` 408–454).

The WHATWG URL parser used by rule 4 (`new URL(serviceUrl).pathname`) is an
external platform component; it is abstracted as the oracle `pathnameOf`,
returning the parsed pathname or `none` when `new URL` throws (the source
catches the exception and falls through to the ultimate fallback).  All
theorems about rule 4 hold for *every* oracle. -/
def extractServiceId (pathnameOf : String → Option String) (serviceUrl : String) : String :=
  match sapMatch serviceUrl.data with
  | some svcName =>
      (match compactMatch svcName with
       | some compact => String.mk compact
       | none =>
          if svcName.length > 8 then String.mk (svcName.take 8) else String.mk svcName)
  | none =>
  match svcMatch serviceUrl.data with
  | some nm =>
      if nm.length > 5 then String.mk (nm.take 5) ++ "Svc" else String.mk nm ++ "Svc"
  | none =>
  match odataMatch serviceUrl.data with
  | some nm =>
      if nm.length > 8 then String.mk (nm.take 8) else String.mk nm
  | none =>
  match pathnameOf serviceUrl with
  | some pathname =>
      let segments := (pathname.split (· = '/')).filter
        (fun s => s ≠ "" ∧ s ∉ noiseSegments)
      match segments.getLast? with
      | some lastSegment =>
          let cleanSegment :=
            trimUnderscoreEnds (collapseUnderscores (sanitizeWordChars lastSegment.data))
          if cleanSegment.length > 1 then
            if cleanSegment.length > 8 then String.mk (cleanSegment.take 8)
            else String.mk cleanSegment
          else "od"
      | none => "od"
  | none => "od"

/-- A pathname oracle for URLs whose service id is decided before rule 4. -/
def noPathname : String → Option String := fun _ => none

end McpNest

namespace McpNest

/-! ## Tool generator (`tool-generator.service.ts`) -/

/-- `expandOperations` (380–390): replace the first `'R'` by `'S','F','G'`
(later copies of `'R'` are untouched), then drop duplicates keeping first
occurrences (`[...new Set(expanded)]`). -/
def spliceFirstR : List String → List String
  | [] => []
  | op :: rest => if op = "R" then "S" :: "F" :: "G" :: rest else op :: spliceFirstR rest

/-- `expandOperations(operations)` (`tool-generator.service.ts` 380–390). -/
def expandOperations (operations : List String) : List String :=
  dedupFirst (spliceFirstR operations)

/-- `getShortenedOperation` (392–406): the shortening table (only `update` and
`delete` are shortened; unknown operations fall through unchanged). -/
def getShortenedOperation (operation : String) : String :=
  match operation with
  | "filter" => "filter"
  | "search" => "search"
  | "get" => "get"
  | "count" => "count"
  | "create" => "create"
  | "update" => "upd"
  | "delete" => "del"
  | "func" => "func"
  | "action" => "action"
  | other => other

/-- `buildToolName(operation, entityOrFunction, serviceId, config)`
(`tool-generator.service.ts` 358–378): assemble, truncate to
`maxToolNameLength`, replace non-word characters by `_`, collapse runs of
`_`.  The source's `toolPrefix`/`toolPostfix` config options are the
`toolPfx`/`toolSfx` fields. -/
def buildToolName (operation entityOrFunction serviceId : String)
    (config : ToolGenerationConfig) : String :=
  let opName := if config.shrinkNames then getShortenedOperation operation else operation
  let servicePart := if config.useServiceId then serviceId else ""
  let toolName :=
    if jsTruthyStr config.toolPfx then
      config.toolPfx.getD "" ++ "_" ++ opName ++ "_" ++ entityOrFunction ++
        (if servicePart ≠ "" then "_" ++ servicePart else "")
    else if jsTruthyStr config.toolSfx then
      opName ++ "_" ++ entityOrFunction ++
        (if servicePart ≠ "" then "_for_" ++ servicePart else "") ++ "_" ++
        config.toolSfx.getD ""
    else
      opName ++ "_" ++ entityOrFunction ++
        (if servicePart ≠ "" then "_for_" ++ servicePart else "")
  let toolName :=
    if (toolName.length : Int) > config.maxToolNameLength then
      String.mk (jsSubstringTo toolName.data config.maxToolNameLength)
    else toolName
  String.mk (collapseUnderscores (sanitizeWordChars toolName.data))

/-- `generateQueryParameterSchema(claudeCodeFriendly)`
(`tool-generator.service.ts` 456–498): the standard query-option schema; the
`$` key prefix is dropped in Claude-code-friendly mode. -/
def generateQueryParameterSchema (claudeCodeFriendly : Bool) :
    List (String × JsonSchema) :=
  let pfx := if claudeCodeFriendly then "" else "$"
  [ (pfx ++ "filter",
     { type := "string", description := some "OData filter expression to restrict results" }),
    (pfx ++ "select",
     { type := "array", items := some { type := "string" },
       description := some "Select specific properties to return" }),
    (pfx ++ "expand",
     { type := "array", items := some { type := "string" },
       description := some "Related entities to expand" }),
    (pfx ++ "orderby",
     { type := "string",
       description := some "Sort expression (e.g., \"Name asc, ID desc\")" }),
    (pfx ++ "top",
     { type := "integer", minimum := some 1,
       description := some "Maximum number of results to return" }),
    (pfx ++ "skip",
     { type := "integer", minimum := some 0,
       description := some "Number of results to skip" }),
    (pfx ++ "count",
     { type := "boolean", description := some "Include total count in response" }),
    (pfx ++ "format",
     { type := "string", enum := some ["json", "xml"],
       description := some "Response format" }) ]

/-- `generateSelectProperties(properties, claudeCodeFriendly)`
(`tool-generator.service.ts` 500–514): a `select` schema whose item `enum` is
the entity's property names. -/
def generateSelectProperties (properties : List ODataProperty)
    (claudeCodeFriendly : Bool) : List (String × JsonSchema) :=
  let pfx := if claudeCodeFriendly then "" else "$"
  let selectOptions := properties.map (fun p => p.name)
  [ (pfx ++ "select",
     { type := "array", items := some { type := "string", enum := some selectOptions },
       description := some "Select specific properties to return" }) ]

/-- The body of `generateKeyProperties`' loop (`tool-generator.service.ts`
519–524): a key name that resolves to a property is assigned its mapped
schema; an unresolved key name is skipped. -/
def keyPropStep (entity : ODataEntity) (keyProps : List (String × JsonSchema))
    (keyProp : String) : List (String × JsonSchema) :=
  match entity.properties.find? (fun p => p.name = keyProp) with
  | some property =>
      setKey keyProps keyProp
        (mapODataTypeToJsonSchema property.type (some property.toLike))
  | none => keyProps

/-- `generateKeyProperties(entity)` (`tool-generator.service.ts` 516–527). -/
def generateKeyProperties (entity : ODataEntity) : List (String × JsonSchema) :=
  entity.keyProperties.foldl (keyPropStep entity) []

/-- The `{ properties, required }` pair returned by
`generateEntityProperties` and `generateFunctionParameters`. -/
structure PropsAndRequired where
  properties : List (String × JsonSchema)
  required : List String

/-- The body of `generateEntityProperties`' loop (`tool-generator.service.ts`
533–543): key properties are skipped only when `isUpdate`; the property name
is pushed onto `required` when non-nullable and not updating. -/
def entityPropStep (isUpdate : Bool) (acc : PropsAndRequired)
    (property : ODataProperty) : PropsAndRequired :=
  if jsTruthyBool property.isKey ∧ isUpdate then acc
  else
    { properties :=
        setKey acc.properties property.name
          (mapODataTypeToJsonSchema property.type (some property.toLike)),
      required :=
        if ¬ property.nullable ∧ ¬ isUpdate then acc.required ++ [property.name]
        else acc.required }

/-- `generateEntityProperties(properties, isUpdate)`
(`tool-generator.service.ts` 529–546). -/
def generateEntityProperties (properties : List ODataProperty) (isUpdate : Bool) :
    PropsAndRequired :=
  properties.foldl (entityPropStep isUpdate) { properties := [], required := [] }

/-- `generateFunctionParameters(parameters)` (`tool-generator.service.ts`
548–561). -/
def generateFunctionParameters (parameters : List ODataParameter) :
    PropsAndRequired :=
  parameters.foldl
    (fun acc param =>
      { properties :=
          setKey acc.properties param.name
            (mapODataTypeToJsonSchema param.type (some param.toLike)),
        required :=
          if ¬ param.nullable then acc.required ++ [param.name]
          else acc.required })
    { properties := [], required := [] }

/-- `generateFilterTool` (`tool-generator.service.ts` 117–140). -/
def generateFilterTool (entitySet : ODataEntitySet) (entity : ODataEntity)
    (serviceId : String) (config : ToolGenerationConfig) : GeneratedTool :=
  { name := buildToolName "filter" entitySet.name serviceId config,
    description := "Filter and list " ++ entitySet.name ++
      " entities with optional query parameters",
    operation := .FILTER,
    entitySet := some entitySet.name,
    handler := "handleEntityFilter",
    inputSchema :=
      { type := "object",
        properties :=
          mergeRecords (generateQueryParameterSchema config.claudeCodeFriendly)
            (generateSelectProperties entity.properties config.claudeCodeFriendly),
        required := [] } }

/-- `generateSearchTool` (`tool-generator.service.ts` 142–169). -/
def generateSearchTool (entitySet : ODataEntitySet) (entity : ODataEntity)
    (serviceId : String) (config : ToolGenerationConfig) : GeneratedTool :=
  { name := buildToolName "search" entitySet.name serviceId config,
    description := "Search " ++ entitySet.name ++ " entities using full-text search",
    operation := .SEARCH,
    entitySet := some entitySet.name,
    handler := "handleEntitySearch",
    inputSchema :=
      { type := "object",
        properties :=
          mergeRecords
            (mergeRecords
              [("search",
                { type := "string", description := some "Search term for full-text search" })]
              (generateQueryParameterSchema config.claudeCodeFriendly))
            (generateSelectProperties entity.properties config.claudeCodeFriendly),
        required := ["search"] } }

/-- `generateGetTool` (`tool-generator.service.ts` 171–200): the `required`
list is `Object.keys` of the key-property record, computed before the spread
merge with the `select`/`expand` schemas. -/
def generateGetTool (entitySet : ODataEntitySet) (entity : ODataEntity)
    (serviceId : String) (config : ToolGenerationConfig) : GeneratedTool :=
  let keyProperties := generateKeyProperties entity
  { name := buildToolName "get" entitySet.name serviceId config,
    description := "Get a single " ++ entitySet.name ++ " entity by key",
    operation := .GET,
    entitySet := some entitySet.name,
    handler := "handleEntityGet",
    inputSchema :=
      { type := "object",
        properties :=
          mergeRecords
            (mergeRecords keyProperties
              (generateSelectProperties entity.properties config.claudeCodeFriendly))
            [("expand",
              { type := "array", items := some { type := "string" },
                description := some "Related entities to expand" })],
        required := recordKeys keyProperties } }

/-- `generateCountTool` (`tool-generator.service.ts` 202–231). -/
def generateCountTool (entitySet : ODataEntitySet) (_entity : ODataEntity)
    (serviceId : String) (config : ToolGenerationConfig) : GeneratedTool :=
  { name := buildToolName "count" entitySet.name serviceId config,
    description := "Get the count of " ++ entitySet.name ++
      " entities with optional filters",
    operation := .COUNT,
    entitySet := some entitySet.name,
    handler := "handleEntityCount",
    inputSchema :=
      { type := "object",
        properties :=
          [ ("filter", { type := "string", description := some "OData filter expression" }),
            ("search", { type := "string", description := some "Search term" }) ],
        required := [] } }

/-- `generateCreateTool` (`tool-generator.service.ts` 233–254): the schema is
`generateEntityProperties(entity.properties, false)` — with `isUpdate =
false`, so key properties are *not* skipped and every non-nullable property
(keys included) is required. -/
def generateCreateTool (entitySet : ODataEntitySet) (entity : ODataEntity)
    (serviceId : String) (config : ToolGenerationConfig) : GeneratedTool :=
  let entityProperties := generateEntityProperties entity.properties false
  { name := buildToolName "create" entitySet.name serviceId config,
    description := "Create a new " ++ entitySet.name ++ " entity",
    operation := .CREATE,
    entitySet := some entitySet.name,
    handler := "handleEntityCreate",
    inputSchema :=
      { type := "object",
        properties := entityProperties.properties,
        required := entityProperties.required } }

/-- `generateUpdateTool` (`tool-generator.service.ts` 256–281). -/
def generateUpdateTool (entitySet : ODataEntitySet) (entity : ODataEntity)
    (serviceId : String) (config : ToolGenerationConfig) : GeneratedTool :=
  let keyProperties := generateKeyProperties entity
  let entityProperties := generateEntityProperties entity.properties true
  { name := buildToolName "update" entitySet.name serviceId config,
    description := "Update an existing " ++ entitySet.name ++ " entity",
    operation := .UPDATE,
    entitySet := some entitySet.name,
    handler := "handleEntityUpdate",
    inputSchema :=
      { type := "object",
        properties := mergeRecords keyProperties entityProperties.properties,
        required := recordKeys keyProperties } }

/-- `generateDeleteTool` (`tool-generator.service.ts` 283–304). -/
def generateDeleteTool (entitySet : ODataEntitySet) (entity : ODataEntity)
    (serviceId : String) (config : ToolGenerationConfig) : GeneratedTool :=
  let keyProperties := generateKeyProperties entity
  { name := buildToolName "delete" entitySet.name serviceId config,
    description := "Delete a " ++ entitySet.name ++ " entity",
    operation := .DELETE,
    entitySet := some entitySet.name,
    handler := "handleEntityDelete",
    inputSchema :=
      { type := "object",
        properties := keyProperties,
        required := recordKeys keyProperties } }

/-- `generateEntitySetTools` (`tool-generator.service.ts` 68–115): each tool
is gated by the expanded operation set and (for Search/Count/Create/Update/
Delete) by the entity set's own capability flag, in the source's order. -/
def generateEntitySetTools (entitySet : ODataEntitySet) (entity : ODataEntity)
    (serviceId : String) (config : ToolGenerationConfig) : List GeneratedTool :=
  let expandedOps := expandOperations config.enabledOperations
  (if "F" ∈ expandedOps then [generateFilterTool entitySet entity serviceId config] else []) ++
  (if "S" ∈ expandedOps ∧ jsTruthyBool entitySet.searchable then
    [generateSearchTool entitySet entity serviceId config] else []) ++
  (if "G" ∈ expandedOps then [generateGetTool entitySet entity serviceId config] else []) ++
  (if "F" ∈ expandedOps ∧ jsTruthyBool entitySet.countable then
    [generateCountTool entitySet entity serviceId config] else []) ++
  (if "C" ∈ expandedOps ∧ jsTruthyBool entitySet.creatable then
    [generateCreateTool entitySet entity serviceId config] else []) ++
  (if "U" ∈ expandedOps ∧ jsTruthyBool entitySet.updatable then
    [generateUpdateTool entitySet entity serviceId config] else []) ++
  (if "D" ∈ expandedOps ∧ jsTruthyBool entitySet.deletable then
    [generateDeleteTool entitySet entity serviceId config] else [])

/-- `generateFunctionTools` (`tool-generator.service.ts` 306–330): gated by
`'A'` in the raw (unexpanded) enabled-operation list. -/
def generateFunctionTools (func : ODataFunction) (serviceId : String)
    (config : ToolGenerationConfig) : List GeneratedTool :=
  if "A" ∈ config.enabledOperations then
    let parameters := generateFunctionParameters func.parameters
    [ { name := buildToolName "func" func.name serviceId config,
        description := "Execute function import: " ++ func.name,
        operation := .FUNCTION,
        functionName := some func.name,
        handler := "handleFunctionCall",
        inputSchema :=
          { type := "object",
            properties := parameters.properties,
            required := parameters.required } } ]
  else []

/-- `generateActionTools` (`tool-generator.service.ts` 332–356). -/
def generateActionTools (action : ODataAction) (serviceId : String)
    (config : ToolGenerationConfig) : List GeneratedTool :=
  if "A" ∈ config.enabledOperations then
    let parameters := generateFunctionParameters action.parameters
    [ { name := buildToolName "action" action.name serviceId config,
        description := "Execute action: " ++ action.name,
        operation := .ACTION,
        functionName := some action.name,
        handler := "handleActionCall",
        inputSchema :=
          { type := "object",
            properties := parameters.properties,
            required := parameters.required } } ]
  else []

/-- `generateToolsForService(systemConfig, service, config)`
(`tool-generator.service.ts` 29–66).  A service without metadata yields no
tools.  For each entity set, the entity is resolved by *exact* name equality
`e.name === entitySet.entityType`; an entity set whose type does not resolve
is skipped (`continue`) — it contributes no tools at all.  `systemConfig` is
only used for logging in the source.  `pathnameOf` abstracts the URL parser
used by `extractServiceId` (see there). -/
def generateToolsForService (_systemConfig : SystemConfig)
    (pathnameOf : String → Option String) (service : ODataService)
    (config : ToolGenerationConfig) : List GeneratedTool :=
  match service.metadata with
  | none => []
  | some metadata =>
    let serviceId := extractServiceId pathnameOf service.url
    (metadata.entitySets.map (fun entitySet =>
      match metadata.entities.find? (fun e => e.name = entitySet.entityType) with
      | none => []
      | some entity => generateEntitySetTools entitySet entity serviceId config)).flatten ++
    (metadata.functions.map (fun func =>
      generateFunctionTools func serviceId config)).flatten ++
    (metadata.actions.map (fun action =>
      generateActionTools action serviceId config)).flatten

end McpNest

namespace McpNest

/-! ## Query-execution bridge (`universal-system-client.service.ts`, `executeQuery`) -/

/-- `ODataQueryOptions` (`system.types.ts`): every field optional; `top` and
`skip` are TypeScript `number`s, modelled as `Int`. -/
structure ODataQueryOptions where
  select : Option (List String) := none
  filter : Option String := none
  orderby : Option String := none
  top : Option Int := none
  skip : Option Int := none
  expand : Option (List String) := none
  count : Option Bool := none
  search : Option String := none
  format : Option String := none

/-- The query-parameter list built by `executeQuery`
(`universal-system-client.service.ts` 378–388): nine sequential
`if (options.x) params.append(...)` statements.  Each option is appended only
when *truthy* (`0`, `false`, `""` and — via `?.length` — an empty array are
skipped); arrays join with commas; `count` appends the literal `"true"`. -/
def buildQueryParams (options : ODataQueryOptions) : List (String × String) :=
  (match options.select with
   | some l => if l.length ≠ 0 then [("$select", String.intercalate "," l)] else []
   | none => []) ++
  (if jsTruthyStr options.filter then [("$filter", options.filter.getD "")] else []) ++
  (if jsTruthyStr options.orderby then [("$orderby", options.orderby.getD "")] else []) ++
  (match options.top with
   | some n => if n ≠ 0 then [("$top", toString n)] else []
   | none => []) ++
  (match options.skip with
   | some n => if n ≠ 0 then [("$skip", toString n)] else []
   | none => []) ++
  (match options.expand with
   | some l => if l.length ≠ 0 then [("$expand", String.intercalate "," l)] else []
   | none => []) ++
  (if jsTruthyBool options.count then [("$count", "true")] else []) ++
  (if jsTruthyStr options.search then [("$search", options.search.getD "")] else []) ++
  (if jsTruthyStr options.format then [("$format", options.format.getD "")] else [])

/-- The data/count/nextLink part of `ODataQueryResult` (`system.types.ts`);
the `metadata` block (timestamps, execution time) is transport bookkeeping
and is not modelled.  `count` is a TypeScript `number` (`NaN` from an
unparsable v2 `__count`, or a non-numeric v4 `@odata.count`, is modelled as
absent); `nextLink` holds the raw JSON value assigned by the source. -/
structure ODataQueryResultCore where
  data : Json
  count : Option ℚ := none
  nextLink : Option Json := none

/-- The v4 (`else if (response.data.value)`) arm of the normalization
(`universal-system-client.service.ts` 420–428), reached when the `d` field is
absent or falsy: a truthy top-level `value` becomes `data`; a *present*
`@odata.count` (checked with `!== undefined`) becomes `count`; a truthy
`@odata.nextLink` becomes `nextLink`.  When `value` is also absent or falsy
the prepared result — raw payload as `data` — is returned unchanged. -/
def normalizeValueBranch (base : ODataQueryResultCore) (respData : Json) :
    ODataQueryResultCore :=
  match jget respData "value" with
  | some v =>
      if jsTruthyJson v then
        { data := v,
          count :=
            match jget respData "@odata.count" with
            | some c => match c with
                        | .num q => some q
                        | _ => none
            | none => none,
          nextLink :=
            match jget respData "@odata.nextLink" with
            | some nl => if jsTruthyJson nl then some nl else none
            | none => none }
      else base
  | none => base

/-- The response normalization of `executeQuery`
(`universal-system-client.service.ts` 397–429).  The result starts as the raw
payload; when the payload is truthy and its `d` field is truthy the v2 arm
runs: `data = d.results || d` (selected by truthiness, not by an array
check), `count = parseInt(d.__count)` when `__count` is present, `nextLink =
d.__next` when truthy.  Otherwise the v4 arm is tried
(`normalizeValueBranch`). -/
def normalizeResponse (respData : Json) : ODataQueryResultCore :=
  let base : ODataQueryResultCore := { data := respData }
  if jsTruthyJson respData then
    match jget respData "d" with
    | some dv =>
        if jsTruthyJson dv then
          { data :=
              match jget dv "results" with
              | some r => if jsTruthyJson r then r else dv
              | none => dv,
            count :=
              match jget dv "__count" with
              | some c => (jsParseIntJson c).map (fun k => ((k : Int) : ℚ))
              | none => none,
            nextLink :=
              match jget dv "__next" with
              | some nl => if jsTruthyJson nl then some nl else none
              | none => none }
        else normalizeValueBranch base respData
    | none => normalizeValueBranch base respData
  else base

end McpNest

namespace McpNest

/-! ## Statement vocabulary and concrete instances used by the verification -/

/-- The regex `^[A-Za-z0-9_]+$`: nonempty, all word characters. -/
def matchesWordPattern (s : String) : Bool :=
  (!s.data.isEmpty) && s.data.all isWordChar

/-- Modelled from the spec: the default tool-generation configuration used in
the spec's `buildToolName` example.  No caller constructing the configuration
is part of the source tree; spec §4.4 prescribes the default naming branch
(no prefix, no postfix) with the service id appended, and gives no numeric
default for `maxToolNameLength` — 64 is used here; any bound ≥ 22 leaves the
example name untruncated. -/
def defaultToolConfig : ToolGenerationConfig :=
  { enabledOperations := ["R", "C", "U", "D"], useServiceId := true,
    shrinkNames := false, maxToolNameLength := 64, claudeCodeFriendly := false }

/-- A concrete entity for the unresolved-entity-set scenario. -/
def entityC1 : ODataEntity :=
  { name := "Product",
    properties := [{ name := "ID", type := "Edm.Int32", nullable := false }],
    keyProperties := ["ID"] }

/-- A service whose single entity set references the entity type `Missing`,
which resolves to no parsed entity. -/
def svcC1 : ODataService :=
  { id := "sys1", name := "svc", url := "https://host/odata/Things",
    metadata := some
      { entities := [entityC1],
        entitySets :=
          [ { name := "Items", entityType := "Missing",
              creatable := some true, countable := some true } ],
        functions := [], actions := [] } }

def sysCfgC1 : SystemConfig := { id := "sys1", name := "System 1", baseUrl := "https://host" }

/-- A configuration with Read (hence Filter) and Create enabled. -/
def cfgC1 : ToolGenerationConfig :=
  { enabledOperations := ["R", "C"], useServiceId := true, shrinkNames := false,
    maxToolNameLength := 64, claudeCodeFriendly := false }

/-- The service `svcC1` with its (unresolvable) entity set dropped. -/
def svcC1Filtered : ODataService :=
  { svcC1 with metadata := some { entities := [entityC1], entitySets := [],
                                  functions := [], actions := [] } }

/-- An entity with a non-nullable key property `ID` and a nullable `Name`. -/
def entC2 : ODataEntity :=
  { name := "P",
    properties :=
      [ { name := "ID", type := "Edm.String", nullable := false, isKey := some true },
        { name := "Name", type := "Edm.String", nullable := true } ],
    keyProperties := ["ID"] }

def esC2 : ODataEntitySet := { name := "Ps", entityType := "P", creatable := some true }

def cfgC2 : ToolGenerationConfig :=
  { enabledOperations := ["C"], useServiceId := true, shrinkNames := false,
    maxToolNameLength := 64, claudeCodeFriendly := false }

/-- A numeric property with precision but no scale. -/
def plC3A : PropertyLike := { name := "Amount", precision := some 5 }

/-- A numeric property with scale but no precision. -/
def plC3B : PropertyLike := { name := "Amount", scale := some 2 }

/-- An entity whose key list `[a, a]` names the same property twice while
still satisfying the key-resolution invariant. -/
def entC5 : ODataEntity :=
  { name := "P",
    properties := [{ name := "a", type := "Edm.String", nullable := false, isKey := some true }],
    keyProperties := ["a", "a"] }

def esC5 : ODataEntitySet := { name := "Ps", entityType := "P" }

def cfgC5 : ToolGenerationConfig :=
  { enabledOperations := ["R", "U", "D"], useServiceId := true, shrinkNames := false,
    maxToolNameLength := 64, claudeCodeFriendly := false }

/-- Query options with a present `skip` of `0` and a present `count` of
`false`. -/
def optsC7 : ODataQueryOptions := { skip := some 0, count := some false }

/-- Query options mixing truthy values with a present-but-zero `skip`. -/
def optsC7W : ODataQueryOptions :=
  { select := some ["Name", "ID"], top := some 5, skip := some 0, count := some true }

/-- The v2 sample payload of the spec. -/
def v2payC8 : Json :=
  .obj [("d", .obj [("results", .arr [.obj [("a", .num 1)]]), ("__count", .str "1")])]

/-- The v4 sample payload of the spec. -/
def v4payC8 : Json :=
  .obj [("value", .arr [.obj [("a", .num 1)]]), ("@odata.count", .num 1)]

/-- A truthy `d` object without a `results` field. -/
def jC10d : Json := .obj [("x", .num 1)]

/-- A payload carrying both a truthy `d` and v4-style top-level fields. -/
def jC10a : Json := .obj [("d", jC10d), ("value", .num 7), ("@odata.count", .num 9)]

/-- The same payload with the v4-style top-level fields removed. -/
def jC10b : Json := .obj [("d", jC10d)]

/-! ## Supporting lemmas -/

theorem recordKeys_setKey {α : Type} (m : List (String × α)) (k : String) (v : α) :
    recordKeys (setKey m k v) =
      if k ∈ recordKeys m then recordKeys m else recordKeys m ++ [k] := by
  induction m with
  | nil => simp [setKey, recordKeys]
  | cons hd tl ih =>
      obtain ⟨k', v'⟩ := hd
      by_cases h : k' = k
      · subst h
        simp [setKey, recordKeys]
      · simp only [setKey, recordKeys, List.map_cons, if_neg h]
        rw [show recordKeys (setKey tl k v) = List.map Prod.fst (setKey tl k v) from rfl] at *
        by_cases hm : k ∈ List.map Prod.fst tl
        · simp [recordKeys] at ih
          simp [ih, hm, List.mem_cons, Ne.symm h]
        · simp [recordKeys] at ih
          simp [ih, hm, List.mem_cons, Ne.symm h]

theorem dedupFirstAux_congr : ∀ (l : List String) {s1 s2 : List String},
    (∀ x, x ∈ s1 ↔ x ∈ s2) → dedupFirstAux s1 l = dedupFirstAux s2 l := by
  intro l
  induction l with
  | nil => intro s1 s2 _; rfl
  | cons k rest ih =>
      intro s1 s2 h
      simp only [dedupFirstAux]
      by_cases hk : k ∈ s1
      · rw [if_pos hk, if_pos ((h k).1 hk), ih h]
      · rw [if_neg hk, if_neg (fun c => hk ((h k).2 c))]
        exact congrArg (k :: ·) (ih (fun x => by simp [List.mem_cons, h x]))

theorem keys_foldl_keyPropStep (entity : ODataEntity) :
    ∀ (kps : List String) (m : List (String × JsonSchema)),
    (∀ k ∈ kps, (entity.properties.find? (fun p => p.name = k)).isSome) →
    recordKeys (kps.foldl (keyPropStep entity) m)
      = recordKeys m ++ dedupFirstAux (recordKeys m) kps := by
  intro kps
  induction kps with
  | nil => intro m _; simp [dedupFirstAux]
  | cons k rest ih =>
      intro m h
      obtain ⟨property, hp⟩ :=
        Option.isSome_iff_exists.1 (h k (List.mem_cons_self k rest))
      rw [List.foldl_cons]
      have hstep : keyPropStep entity m k =
          setKey m k (mapODataTypeToJsonSchema property.type (some property.toLike)) := by
        simp [keyPropStep, hp]
      rw [hstep]
      have hrest : ∀ k' ∈ rest, (entity.properties.find? (fun p => p.name = k')).isSome :=
        fun k' hk' => h k' (List.mem_cons_of_mem k hk')
      rw [ih _ hrest, recordKeys_setKey]
      by_cases hm : k ∈ recordKeys m
      · rw [if_pos hm]
        simp only [dedupFirstAux, if_pos hm]
      · rw [if_neg hm]
        simp only [dedupFirstAux, if_neg hm]
        rw [List.append_assoc]
        refine congrArg (recordKeys m ++ ·) ?_
        rw [dedupFirstAux_congr rest
          (show ∀ x, x ∈ recordKeys m ++ [k] ↔ x ∈ k :: recordKeys m by
            intro x; simp [List.mem_cons, or_comm])]
        rfl

theorem foldl_entityPropStep_false :
    ∀ (ps : List ODataProperty) (acc : PropsAndRequired),
    recordKeys (ps.foldl (entityPropStep false) acc).properties
      = recordKeys acc.properties ++
          dedupFirstAux (recordKeys acc.properties) (ps.map (fun p => p.name))
    ∧ (ps.foldl (entityPropStep false) acc).required
      = acc.required ++ (ps.filter (fun p => !p.nullable)).map (fun p => p.name) := by
  intro ps
  induction ps with
  | nil => intro acc; simp [dedupFirstAux]
  | cons p rest ih =>
      intro acc
      rw [List.foldl_cons]
      have hstep : entityPropStep false acc p =
          { properties := setKey acc.properties p.name
              (mapODataTypeToJsonSchema p.type (some p.toLike)),
            required := if ¬ p.nullable then acc.required ++ [p.name]
              else acc.required } := by
        simp [entityPropStep]
      rw [hstep]
      obtain ⟨ihk, ihr⟩ := ih
        { properties := setKey acc.properties p.name
            (mapODataTypeToJsonSchema p.type (some p.toLike)),
          required := if ¬ p.nullable then acc.required ++ [p.name]
            else acc.required }
      constructor
      · rw [ihk]
        simp only [recordKeys_setKey, List.map_cons]
        by_cases hm : p.name ∈ recordKeys acc.properties
        · rw [if_pos hm]
          simp only [dedupFirstAux, if_pos hm]
        · rw [if_neg hm]
          simp only [dedupFirstAux, if_neg hm]
          rw [List.append_assoc]
          refine congrArg (recordKeys acc.properties ++ ·) ?_
          rw [dedupFirstAux_congr (rest.map (fun p => p.name))
            (show ∀ x, x ∈ recordKeys acc.properties ++ [p.name] ↔
                x ∈ p.name :: recordKeys acc.properties by
              intro x; simp [List.mem_cons, or_comm])]
          rfl
      · rw [ihr]
        by_cases hn : p.nullable
        · simp [hn]
        · simp [hn]

theorem dedupFirstAux_eq_self : ∀ (l seen : List String),
    (∀ x ∈ l, x ∉ seen) → l.Nodup → dedupFirstAux seen l = l := by
  intro l
  induction l with
  | nil => intro seen _ _; rfl
  | cons k rest ih =>
      intro seen hdisj hnd
      simp only [dedupFirstAux, if_neg (hdisj k (List.mem_cons_self k rest))]
      refine congrArg (k :: ·) (ih (k :: seen) ?_ (List.Nodup.of_cons hnd))
      intro x hx
      simp only [List.mem_cons]
      rintro (rfl | hxs)
      · exact (List.nodup_cons.1 hnd).1 hx
      · exact hdisj x (List.mem_cons_of_mem k hx) hxs

theorem dedupFirst_eq_self {l : List String} (h : l.Nodup) : dedupFirst l = l :=
  dedupFirstAux_eq_self l [] (fun x _ => List.not_mem_nil x) h

theorem generateKeyProperties_keys (entity : ODataEntity)
    (hinv : ∀ k ∈ entity.keyProperties, ∃ p ∈ entity.properties, p.name = k) :
    recordKeys (generateKeyProperties entity) = dedupFirst entity.keyProperties := by
  have hfound : ∀ k ∈ entity.keyProperties,
      (entity.properties.find? (fun p => p.name = k)).isSome := by
    intro k hk
    rw [List.find?_isSome]
    obtain ⟨p, hp, hpk⟩ := hinv k hk
    exact ⟨p, hp, by simp [hpk]⟩
  have := keys_foldl_keyPropStep entity entity.keyProperties [] hfound
  simpa [generateKeyProperties, dedupFirst, recordKeys] using this

theorem flatten_map_filter {α β : Type} (l : List α) (p : α → Bool) (f : α → List β)
    (h : ∀ x ∈ l, p x = false → f x = []) :
    ((l.filter p).map f).flatten = (l.map f).flatten := by
  induction l with
  | nil => rfl
  | cons x rest ih =>
      have hrest := ih (fun y hy => h y (List.mem_cons_of_mem x hy))
      by_cases hx : p x = true
      · simp [List.filter_cons, hx, hrest]
      · have hx' : p x = false := by simpa using hx
        simp [List.filter_cons, hx', hrest, h x (List.mem_cons_self x rest) hx']

theorem mem_params_ite {c : Prop} [Decidable c] (x y : String × String) :
    x ∈ (if c then [y] else []) ↔ c ∧ x = y := by
  split_ifs with h <;> simp_all

theorem memFst_params_ite {c : Prop} [Decidable c] (s k : String) (v : String) :
    s ∈ ((if c then [(k, v)] else [] : List (String × String)).map Prod.fst)
      ↔ c ∧ s = k := by
  split_ifs with h <;> simp_all

example : ("a" : String) = "b" ↔ False := by simp

example (o : ODataQueryOptions) (h : o.skip = some 0) :
    "$skip" ∉ (buildQueryParams o).map Prod.fst := by
  simp only [buildQueryParams, h, List.map_append, List.mem_append, memFst_params_ite]
  rcases o.select with _ | l <;> rcases o.top with _ | n <;> rcases o.expand with _ | e <;>
    simp [memFst_params_ite]

theorem sublist_params_ite {c : Prop} [Decidable c] (k : String) (v : String) :
    List.Sublist ((if c then [(k, v)] else [] : List (String × String)).map Prod.fst) [k] := by
  split_ifs <;> simp

theorem jsTruthyJson_of_jget {j : Json} {k : String} {v : Json}
    (h : jget j k = some v) : jsTruthyJson j = true := by
  cases j <;> simp_all [jget, jsTruthyJson]

theorem collapseUnderscores_cons (c : Char) (cs : List Char) :
    collapseUnderscores (c :: cs) =
      if c = '_' ∧ (collapseUnderscores cs).head? = some '_' then collapseUnderscores cs
      else c :: collapseUnderscores cs := rfl

theorem mem_collapseUnderscores {x : Char} : ∀ {l : List Char},
    x ∈ collapseUnderscores l → x ∈ l := by
  intro l
  induction l with
  | nil => simp [collapseUnderscores]
  | cons c cs ih =>
      rw [collapseUnderscores_cons]
      split_ifs with hc
      · intro hx
        exact List.mem_cons_of_mem c (ih hx)
      · intro hx
        rcases List.mem_cons.1 hx with rfl | hx
        · exact List.mem_cons_self _ _
        · exact List.mem_cons_of_mem c (ih hx)

theorem length_collapseUnderscores_le : ∀ (l : List Char),
    (collapseUnderscores l).length ≤ l.length := by
  intro l
  induction l with
  | nil => simp [collapseUnderscores]
  | cons c cs ih =>
      rw [collapseUnderscores_cons]
      split_ifs with hc
      · exact Nat.le_succ_of_le ih
      · simpa using Nat.succ_le_succ ih

theorem collapseUnderscores_ne_nil {c : Char} {cs : List Char} :
    collapseUnderscores (c :: cs) ≠ [] := by
  rw [collapseUnderscores_cons]
  split_ifs with hc
  · intro h
    rw [h] at hc
    simp at hc
  · simp

theorem all_sanitizeWordChars (l : List Char) :
    (sanitizeWordChars l).all isWordChar = true := by
  simp only [sanitizeWordChars, List.all_eq_true]
  intro c hc
  rcases List.mem_map.1 hc with ⟨c0, _, rfl⟩
  split_ifs with h
  · exact h
  · decide

theorem length_sanitizeWordChars (l : List Char) :
    (sanitizeWordChars l).length = l.length := List.length_map l _

theorem postprocess_spec (l : List Char) (hne : l ≠ []) :
    collapseUnderscores (sanitizeWordChars l) ≠ []
    ∧ (collapseUnderscores (sanitizeWordChars l)).length ≤ l.length
    ∧ (collapseUnderscores (sanitizeWordChars l)).all isWordChar = true := by
  refine ⟨?_, ?_, ?_⟩
  · obtain ⟨c, cs, rfl⟩ := List.exists_cons_of_ne_nil hne
    simp only [sanitizeWordChars, List.map_cons]
    exact collapseUnderscores_ne_nil
  · calc (collapseUnderscores (sanitizeWordChars l)).length
        ≤ (sanitizeWordChars l).length := length_collapseUnderscores_le _
      _ = l.length := length_sanitizeWordChars l
  · rw [List.all_eq_true]
    intro c hc
    have := mem_collapseUnderscores hc
    exact List.all_eq_true.1 (all_sanitizeWordChars l) c this

theorem postTrunc_spec (mx : Int) (hmax : 1 ≤ mx) (A : String)
    (hA : 1 ≤ A.data.length) :
    matchesWordPattern (String.mk (collapseUnderscores (sanitizeWordChars
      (if ((A.length : Int) > mx) then String.mk (jsSubstringTo A.data mx)
       else A).data))) = true
    ∧ ((String.mk (collapseUnderscores (sanitizeWordChars
      (if ((A.length : Int) > mx) then String.mk (jsSubstringTo A.data mx)
       else A).data))).length : Int) ≤ mx := by
  have hAlen : A.length = A.data.length := rfl
  by_cases hc : ((A.length : Int) > mx)
  · rw [if_pos hc]
    have hlen : (jsSubstringTo A.data mx).length = mx.toNat := by
      simp only [jsSubstringTo, List.length_take]
      omega
    have hne : jsSubstringTo A.data mx ≠ [] := by
      intro hnil
      rw [hnil] at hlen
      simp at hlen
      omega
    obtain ⟨h1, h2, h3⟩ := postprocess_spec (jsSubstringTo A.data mx) hne
    refine ⟨?_, ?_⟩
    · simp only [matchesWordPattern, Bool.and_eq_true, Bool.not_eq_true']
      exact ⟨by simpa [List.isEmpty_iff] using h1, h3⟩
    · show ((collapseUnderscores (sanitizeWordChars (jsSubstringTo A.data mx))).length : Int) ≤ mx
      rw [hlen] at h2
      omega
  · rw [if_neg hc]
    obtain ⟨h1, h2, h3⟩ := postprocess_spec A.data
      (by intro hnil; rw [hnil] at hA; simp at hA)
    refine ⟨?_, ?_⟩
    · simp only [matchesWordPattern, Bool.and_eq_true, Bool.not_eq_true']
      exact ⟨by simpa [List.isEmpty_iff] using h1, h3⟩
    · show ((collapseUnderscores (sanitizeWordChars A.data)).length : Int) ≤ mx
      omega

theorem isWordChar_of_upper {c : Char} (h : isUpperAZ c = true) : isWordChar c = true := by
  simp only [isUpperAZ, Bool.decide_and, Bool.and_eq_true, decide_eq_true_eq] at h
  simp only [isWordChar, Char.isAlphanum, Char.isAlpha, Char.isUpper, Bool.or_eq_true]
  left; left; left
  simp only [Bool.and_eq_true, decide_eq_true_eq]
  exact ⟨h.1, h.2⟩

theorem isWordChar_of_digit {c : Char} (h : c.isDigit = true) : isWordChar c = true := by
  simp only [isWordChar, Char.isAlphanum, Bool.or_eq_true]
  left; right
  exact h

theorem isWordChar_of_sapBody {c : Char} (h : isSapBodyChar c = true) : isWordChar c = true := by
  simp only [isSapBodyChar, Bool.or_eq_true] at h
  rcases h with (h | h) | h
  · exact isWordChar_of_upper h
  · exact isWordChar_of_digit h
  · simp [isWordChar, h]

theorem isWordChar_of_alpha {c : Char} (h : c.isAlpha = true) : isWordChar c = true := by
  simp [isWordChar, Char.isAlphanum, h]

theorem mem_takeWhile_sat {p : Char → Bool} : ∀ {l : List Char} {c : Char},
    c ∈ l.takeWhile p → p c = true := by
  intro l
  induction l with
  | nil => intro c hc; simp [List.takeWhile] at hc
  | cons x xs ih =>
      intro c hc
      rw [List.takeWhile_cons] at hc
      by_cases hx : p x = true
      · rw [if_pos hx] at hc
        rcases List.mem_cons.1 hc with rfl | hc
        · exact hx
        · exact ih hc
      · rw [if_neg hx] at hc
        simp at hc

theorem capThroughLastSRV_subset : ∀ {l r : List Char},
    capThroughLastSRV l = some r → ∀ c ∈ r, c ∈ l := by
  intro l
  induction l with
  | nil => intro r hr; simp [capThroughLastSRV] at hr
  | cons x xs ih =>
      intro r hr c hc
      rw [capThroughLastSRV] at hr
      rcases hrec : capThroughLastSRV xs with _ | r'
      · rw [hrec] at hr
        split_ifs at hr with h4
        cases hr
        have : c ∈ (x :: xs).take 4 := by rw [h4]; exact hc
        exact List.take_subset _ _ this
      · rw [hrec] at hr
        cases hr
        rcases List.mem_cons.1 hc with rfl | hc
        · exact List.mem_cons_self _ _
        · exact List.mem_cons_of_mem _ (ih hrec c hc)

theorem sapCaptureAt_chars : ∀ {l cap : List Char},
    sapCaptureAt l = some cap → cap.all isWordChar = true := by
  intro l cap h
  match l, h with
  | c :: rest, h =>
      rw [sapCaptureAt] at h
      split_ifs at h with hu
      rcases hcap : capThroughLastSRV (rest.takeWhile isSapBodyChar) with _ | r
      · rw [hcap] at h; cases h
      · rw [hcap] at h
        cases h
        rw [List.all_cons, Bool.and_eq_true]
        refine ⟨isWordChar_of_upper hu, ?_⟩
        rw [List.all_eq_true]
        intro x hx
        exact isWordChar_of_sapBody
          (mem_takeWhile_sat (capThroughLastSRV_subset hcap x hx))

theorem sapMatch_chars : ∀ {l cap : List Char},
    sapMatch l = some cap → cap.all isWordChar = true := by
  intro l
  induction l with
  | nil => intro cap h; simp [sapMatch] at h
  | cons x xs ih =>
      intro cap h
      rw [sapMatch] at h
      split_ifs at h with hx
      · rcases hat : sapCaptureAt xs with _ | c
        · rw [hat] at h
          exact ih h
        · rw [hat] at h
          cases h
          exact sapCaptureAt_chars hat
      · exact ih h

theorem compactDigits1_spec {m ds : List Char} (h : compactDigits1 m = some ds) :
    ds ≠ [] ∧ ds.all Char.isDigit = true := by
  rw [compactDigits1] at h
  split_ifs at h with he
  cases h
  refine ⟨by simpa [List.isEmpty_iff] using he, ?_⟩
  rw [List.all_eq_true]
  intro c hc
  exact mem_takeWhile_sat hc

theorem compactFinish_spec {l ds : List Char} (h : compactFinish l = some ds) :
    ds ≠ [] ∧ ds.all Char.isDigit = true := by
  rcases l with _ | ⟨c, t⟩
  · simp only [compactFinish.eq_def] at h
    exact compactDigits1_spec h
  · simp only [compactFinish.eq_def] at h
    split_ifs at h with hc
    · rcases hd : compactDigits1 t with _ | ds'
      · rw [hd] at h
        simp only [Option.orElse] at h
        exact compactDigits1_spec h
      · rw [hd] at h
        simp only [Option.orElse] at h
        cases h
        exact compactDigits1_spec hd
    · exact compactDigits1_spec h

theorem compactAux_spec : ∀ {l ds : List Char}, compactAux l = some ds →
    ds ≠ [] ∧ ds.all Char.isDigit = true := by
  intro l
  induction l with
  | nil => intro ds h; simp [compactAux] at h
  | cons c rest ih =>
      intro ds h
      rw [compactAux] at h
      split_ifs at h with hu
      · rcases ha : compactAux rest with _ | ds'
        · rw [ha] at h
          simp only [Option.orElse] at h
          exact compactFinish_spec h
        · rw [ha] at h
          simp only [Option.orElse] at h
          cases h
          exact ih ha
      · exact compactFinish_spec h

theorem compactMatch_spec : ∀ {l r : List Char}, compactMatch l = some r →
    ∃ c ds, r = c :: ds ∧ isUpperAZ c = true ∧ ds ≠ [] ∧ ds.all Char.isDigit = true := by
  intro l r h
  match l, h with
  | c :: rest, h =>
      rw [compactMatch] at h
      split_ifs at h with hu
      rcases ha : compactAux rest with _ | ds
      · rw [ha] at h; cases h
      · rw [ha] at h
        cases h
        obtain ⟨h1, h2⟩ := compactAux_spec ha
        exact ⟨c, ds, rfl, hu, h1, h2⟩

theorem svcCaptureAt_chars : ∀ {l nm : List Char},
    svcCaptureAt l = some nm → nm.all isWordChar = true := by
  intro l nm h
  rcases l with _ | ⟨c, rest⟩
  · simp [svcCaptureAt] at h
  · simp only [svcCaptureAt] at h
    split_ifs at h with ha hrun
    cases h
    rw [List.all_cons, Bool.and_eq_true]
    refine ⟨isWordChar_of_alpha ha, ?_⟩
    rw [List.all_eq_true]
    intro x hx
    exact mem_takeWhile_sat hx

theorem svcMatch_chars : ∀ {l nm : List Char},
    svcMatch l = some nm → nm.all isWordChar = true := by
  intro l
  induction l with
  | nil => intro nm h; simp [svcMatch] at h
  | cons x xs ih =>
      intro nm h
      rw [svcMatch] at h
      split_ifs at h with hx
      · rcases hat : svcCaptureAt xs with _ | c
        · rw [hat] at h
          exact ih h
        · rw [hat] at h
          cases h
          exact svcCaptureAt_chars hat
      · exact ih h

theorem odataCaptureAt_chars : ∀ {l nm : List Char},
    odataCaptureAt l = some nm → nm.all isWordChar = true := by
  intro l nm h
  rcases l with _ | ⟨c, rest⟩
  · simp [odataCaptureAt] at h
  · simp only [odataCaptureAt] at h
    split_ifs at h with ha hrun
    cases h
    rw [List.all_cons, Bool.and_eq_true]
    refine ⟨isWordChar_of_alpha ha, ?_⟩
    rw [List.all_eq_true]
    intro x hx
    exact mem_takeWhile_sat hx

theorem odataMatch_chars : ∀ {l nm : List Char},
    odataMatch l = some nm → nm.all isWordChar = true := by
  intro l
  induction l with
  | nil => intro nm h; simp [odataMatch] at h
  | cons x xs ih =>
      intro nm h
      rw [odataMatch] at h
      by_cases h7 : (x :: xs).take 7 = "/odata/".data
      · rw [if_pos h7] at h
        rcases hat : odataCaptureAt ((x :: xs).drop 7) with _ | c
        · rw [hat] at h
          simp only [Option.orElse] at h
          exact ih h
        · rw [hat] at h
          simp only [Option.orElse] at h
          cases h
          exact odataCaptureAt_chars hat
      · rw [if_neg h7] at h
        simp only [Option.orElse] at h
        exact ih h

theorem mem_dropOneLeadingUnderscore {c : Char} : ∀ {l : List Char},
    c ∈ dropOneLeadingUnderscore l → c ∈ l := by
  intro l h
  match l, h with
  | x :: t, h =>
      rw [dropOneLeadingUnderscore] at h
      split_ifs at h with hx
      · exact List.mem_cons_of_mem x h
      · exact h

theorem mem_trimUnderscoreEnds {c : Char} {l : List Char}
    (h : c ∈ trimUnderscoreEnds l) : c ∈ l := by
  rw [trimUnderscoreEnds] at h
  rw [List.mem_reverse] at h
  have h2 := mem_dropOneLeadingUnderscore h
  rw [List.mem_reverse] at h2
  exact mem_dropOneLeadingUnderscore h2

theorem all_word_take {l : List Char} (n : Nat) (h : l.all isWordChar = true) :
    (l.take n).all isWordChar = true := by
  rw [List.all_eq_true] at h ⊢
  intro c hc
  exact h c (List.take_subset n l hc)

theorem all_digit_imp_word {l : List Char} (h : l.all Char.isDigit = true) :
    l.all isWordChar = true := by
  rw [List.all_eq_true] at h ⊢
  intro c hc
  exact isWordChar_of_digit (h c hc)

/-! ## Claims -/

/-- Claim C1, amended.  An entity set whose `entityType` resolves to no
parsed entity is not retained by tool generation: it is skipped entirely and
contributes no tools at all (not even Filter or Count), so the generated
tool list equals the one obtained after dropping every unresolvable entity
set; other entity sets, functions and actions are unaffected. -/
theorem generateToolsForService_skips_unresolved (systemConfig : SystemConfig)
    (pathnameOf : String → Option String) (service : ODataService)
    (config : ToolGenerationConfig) (metadata : ODataServiceMetadata)
    (hm : service.metadata = some metadata) :
    generateToolsForService systemConfig pathnameOf service config
      = generateToolsForService systemConfig pathnameOf
          { service with metadata := some ({ metadata with
              entitySets := metadata.entitySets.filter
                (fun es => (metadata.entities.find? (fun e => e.name = es.entityType)).isSome) }) }
          config := by
  simp only [generateToolsForService, hm]
  refine congrArg (· ++ _) (congrArg (· ++ _) ?_)
  refine (flatten_map_filter metadata.entitySets _ _ ?_).symm
  intro es _ hnone
  have h0 : (metadata.entities.find? (fun e => e.name = es.entityType)) = none :=
    Option.not_isSome_iff_eq_none.1 (by simp [hnone])
  simp [h0]

/-- Claim C1, counterexample to the claim as stated.  A service with one
entity set whose `entityType` (`Missing`) resolves to no entity, with Filter
enabled and the set countable, generates no tools at all — the claim asserts
Filter and Count tools are still produced. -/
theorem unresolvedEntitySet_counterexample :
    (svcC1.metadata.map (fun m => m.entitySets.map (fun es => es.entityType)))
        = some ["Missing"]
    ∧ (svcC1.metadata.map (fun m => m.entities.map (fun e => e.name)))
        = some ["Product"]
    ∧ "F" ∈ expandOperations cfgC1.enabledOperations
    ∧ generateToolsForService sysCfgC1 noPathname svcC1 cfgC1 = [] := by
  exact ⟨rfl, rfl, by decide, rfl⟩

/-- Witness for C1: the skip theorem applied to the concrete service with
one unresolvable entity set. -/
theorem generateToolsForService_skips_unresolved_witness :
    generateToolsForService sysCfgC1 noPathname svcC1 cfgC1
      = generateToolsForService sysCfgC1 noPathname svcC1Filtered cfgC1 := by
  have h := generateToolsForService_skips_unresolved sysCfgC1 noPathname svcC1 cfgC1
    { entities := [entityC1],
      entitySets :=
        [ { name := "Items", entityType := "Missing",
            creatable := some true, countable := some true } ],
      functions := [], actions := [] } rfl
  exact h.trans rfl

/-- Claim C2, amended.  For every entity set with truthy `creatable` and
config whose expanded operation set contains C, the Create tool is generated,
its parameter record has as keys exactly the names of *all* entity properties
(key properties included; duplicate names keep their first position), and its
required list is exactly the names of all non-nullable properties (key
properties included). -/
theorem createTool_schema_spec (entitySet : ODataEntitySet) (entity : ODataEntity)
    (serviceId : String) (config : ToolGenerationConfig)
    (hcr : jsTruthyBool entitySet.creatable = true)
    (hC : "C" ∈ expandOperations config.enabledOperations) :
    generateCreateTool entitySet entity serviceId config
        ∈ generateEntitySetTools entitySet entity serviceId config
    ∧ recordKeys (generateCreateTool entitySet entity serviceId config).inputSchema.properties
        = dedupFirst (entity.properties.map (fun p => p.name))
    ∧ (generateCreateTool entitySet entity serviceId config).inputSchema.required
        = (entity.properties.filter (fun p => !p.nullable)).map (fun p => p.name) := by
  refine ⟨?_, ?_, ?_⟩
  · simp only [generateEntitySetTools]
    refine List.mem_append_left _ (List.mem_append_left _ ?_)
    refine List.mem_append_right _ ?_
    rw [if_pos ⟨hC, hcr⟩]
    exact List.mem_singleton.2 rfl
  · have := (foldl_entityPropStep_false entity.properties
      { properties := [], required := [] }).1
    simpa [generateCreateTool, generateEntityProperties, dedupFirst, recordKeys] using this
  · have := (foldl_entityPropStep_false entity.properties
      { properties := [], required := [] }).2
    simpa [generateCreateTool, generateEntityProperties] using this

/-- Claim C2, counterexample to the claim as stated.  For an entity with key
property `ID` (non-nullable), the Create tool parameters are `ID, Name` and
the required list is `[ID]` — the key property appears both as a parameter
and as required, while the claim says it must appear in neither. -/
theorem createTool_counterexample :
    jsTruthyBool esC2.creatable = true
    ∧ "C" ∈ expandOperations cfgC2.enabledOperations
    ∧ entC2.keyProperties = ["ID"]
    ∧ recordKeys (generateCreateTool esC2 entC2 "NW" cfgC2).inputSchema.properties
        = ["ID", "Name"]
    ∧ (generateCreateTool esC2 entC2 "NW" cfgC2).inputSchema.required = ["ID"] := by
  exact ⟨rfl, by decide, rfl, rfl, rfl⟩

/-- Witness for C2: the amended Create-tool theorem applied to the concrete
entity. -/
theorem createTool_schema_witness :
    generateCreateTool esC2 entC2 "NW" cfgC2 ∈ generateEntitySetTools esC2 entC2 "NW" cfgC2
    ∧ (generateCreateTool esC2 entC2 "NW" cfgC2).inputSchema.required = ["ID"] := by
  have h := createTool_schema_spec esC2 entC2 "NW" cfgC2 rfl (by decide)
  exact ⟨h.1, h.2.2.trans (by decide)⟩

/-- Claim C3, amended.  For Edm.Single/Double/Decimal the mapped schema has
type `number`; `multipleOf` is attached exactly when `precision` is truthy
(present and nonzero) — not when scale is present; its value is `1` when
`scale` is absent or zero, and `10^(-scale)` otherwise. -/
theorem mapNumberTypes_multipleOf_spec (odataType : String) (p : PropertyLike)
    (ht : odataType ∈ ["Edm.Single", "Edm.Double", "Edm.Decimal"]) :
    (mapODataTypeToJsonSchema odataType (some p)).type = "number"
    ∧ ((mapODataTypeToJsonSchema odataType (some p)).multipleOf.isSome
        ↔ jsTruthyInt p.precision = true)
    ∧ (jsTruthyInt p.precision = true → p.scale = none →
        (mapODataTypeToJsonSchema odataType (some p)).multipleOf = some 1)
    ∧ (jsTruthyInt p.precision = true → p.scale = some 0 →
        (mapODataTypeToJsonSchema odataType (some p)).multipleOf = some 1)
    ∧ (∀ sc : Int, jsTruthyInt p.precision = true → p.scale = some sc → sc ≠ 0 →
        (mapODataTypeToJsonSchema odataType (some p)).multipleOf
          = some (jsPow10 (-sc))) := by
  have hmo : (mapODataTypeToJsonSchema odataType (some p)).multipleOf
      = (if jsTruthyInt p.precision then some (jsPow10 (jsNegScaleOrZero p.scale))
         else none)
      ∧ (mapODataTypeToJsonSchema odataType (some p)).type = "number" := by
    simp only [List.mem_cons, List.not_mem_nil, or_false] at ht
    rcases ht with rfl | rfl | rfl <;>
      · simp only [mapODataTypeToJsonSchema]
        norm_num
        cases p.defaultValue <;> simp
  refine ⟨hmo.2, ?_, ?_, ?_, ?_⟩
  · rw [hmo.1]
    rcases hpr : jsTruthyInt p.precision with _ | _ <;> simp [hpr]
  · intro hpr hsc
    rw [hmo.1, if_pos hpr, hsc]
    norm_num [jsNegScaleOrZero, jsPow10]
  · intro hpr hsc
    rw [hmo.1, if_pos hpr, hsc]
    norm_num [jsNegScaleOrZero, jsPow10]
  · intro sc hpr hsc hne
    rw [hmo.1, if_pos hpr, hsc]
    simp [jsNegScaleOrZero, hne]

/-- Claim C3, counterexample to the claim as stated.  With precision `5` and
no scale, `multipleOf = 1` is attached although scale is absent; with scale
`2` and no precision, no `multipleOf` is attached although scale is
present. -/
theorem mapNumberTypes_counterexample :
    plC3A.scale = none
    ∧ (mapODataTypeToJsonSchema "Edm.Decimal" (some plC3A)).multipleOf = some 1
    ∧ plC3B.scale = some 2
    ∧ (mapODataTypeToJsonSchema "Edm.Decimal" (some plC3B)).multipleOf = none := by
  refine ⟨rfl, ?_, rfl, ?_⟩
  · show some (jsPow10 (jsNegScaleOrZero none)) = some 1
    norm_num [jsNegScaleOrZero, jsPow10]
  · rfl

/-- Witness for C3: precision `3`, scale `2` yields `multipleOf = 1/100`. -/
theorem mapNumberTypes_witness :
    (mapODataTypeToJsonSchema "Edm.Decimal"
      (some { name := "Amount", precision := some 3, scale := some 2 })).multipleOf
      = some ((1 : ℚ) / 100) := by
  have h := (mapNumberTypes_multipleOf_spec "Edm.Decimal"
    { name := "Amount", precision := some 3, scale := some 2 } (by decide)).2.2.2.2
    2 (by decide) rfl (by decide)
  rw [h]
  norm_num [jsPow10, show ((2 : ℤ)).toNat = 2 from rfl]

/-- Claim C4, amended.  Whatever the URL parser does, the service-ID deriver
maps the SAP URL to `"Z000"` (the regex digit group `(\d+)` captures the
whole run `000`, so letter+digits is `Z000`, not `Z0`) and the Northwind URL
to `"NorthSvc"`. -/
theorem extractServiceId_examples (pathnameOf : String → Option String) :
    extractServiceId pathnameOf "https://x/sap/opu/odata/sap/ZODD_000_SRV" = "Z000"
    ∧ extractServiceId pathnameOf "https://x/V4/Northwind/Northwind.svc" = "NorthSvc" :=
  ⟨rfl, rfl⟩

/-- Claim C4, counterexample to the claim as stated: the SAP URL derives
`"Z000"`, which differs from the claimed `"Z0"`. -/
theorem extractServiceId_counterexample :
    extractServiceId noPathname "https://x/sap/opu/odata/sap/ZODD_000_SRV" = "Z000"
    ∧ ("Z000" : String) ≠ "Z0" := by
  exact ⟨rfl, by decide⟩

/-- Claim C5, amended.  Under the key-resolution invariant, the required
list of every generated Get, Update and Delete tool equals the entity key
list with later duplicate names dropped (first occurrences kept, order
preserved); in particular it equals `keyProperties` exactly whenever that
list has no duplicates. -/
theorem keyTools_required_eq (entitySet : ODataEntitySet) (entity : ODataEntity)
    (serviceId : String) (config : ToolGenerationConfig)
    (hinv : ∀ k ∈ entity.keyProperties, ∃ p ∈ entity.properties, p.name = k) :
    (generateGetTool entitySet entity serviceId config).inputSchema.required
        = dedupFirst entity.keyProperties
    ∧ (generateUpdateTool entitySet entity serviceId config).inputSchema.required
        = dedupFirst entity.keyProperties
    ∧ (generateDeleteTool entitySet entity serviceId config).inputSchema.required
        = dedupFirst entity.keyProperties
    ∧ (entity.keyProperties.Nodup → dedupFirst entity.keyProperties = entity.keyProperties) := by
  have hk := generateKeyProperties_keys entity hinv
  exact ⟨by simpa [generateGetTool] using hk,
         by simpa [generateUpdateTool] using hk,
         by simpa [generateDeleteTool] using hk,
         fun h => dedupFirst_eq_self h⟩

/-- Claim C5, counterexample to the claim as stated.  An entity whose key
list repeats the name `a` satisfies the invariant, yet the Get tool required
list is `[a]`, not `[a, a]` — `Object.keys` of the key-property record drops
the duplicate. -/
theorem keyTools_required_counterexample :
    (∀ k ∈ entC5.keyProperties, ∃ p ∈ entC5.properties, p.name = k)
    ∧ (generateGetTool esC5 entC5 "NW" cfgC5).inputSchema.required = ["a"]
    ∧ entC5.keyProperties = ["a", "a"]
    ∧ (["a"] : List String) ≠ ["a", "a"] := by
  refine ⟨?_, rfl, rfl, by decide⟩
  intro k hk
  simp [entC5] at hk
  subst hk
  exact ⟨_, List.mem_cons_self _ _, rfl⟩

/-- Witness for C5: the amended theorem applied to the duplicate-free
variant of the entity. -/
theorem keyTools_required_witness :
    (generateGetTool esC5 { entC5 with keyProperties := ["a"] } "NW" cfgC5).inputSchema.required
      = ["a"] := by
  have := keyTools_required_eq esC5 { entC5 with keyProperties := ["a"] } "NW" cfgC5
    (by intro k hk; simp [entC5] at hk; subst hk; exact ⟨_, List.mem_cons_self _ _, rfl⟩)
  exact this.1.trans (by decide)

/-- Claim C6, amended.  For every URL-parser oracle and every input string
the deriver is total and returns a string of word characters
(`[A-Za-z0-9_]`) only; its length is at most 8 in every branch except the
SAP compact rule, whose result is one uppercase letter followed by the whole
matched digit group — which may exceed 8 characters. -/
theorem extractServiceId_safety (pathnameOf : String → Option String)
    (serviceUrl : String) :
    (extractServiceId pathnameOf serviceUrl).data.all isWordChar = true
    ∧ ((extractServiceId pathnameOf serviceUrl).length ≤ 8
       ∨ ∃ c ds, (extractServiceId pathnameOf serviceUrl).data = c :: ds
           ∧ isUpperAZ c = true ∧ ds ≠ [] ∧ ds.all Char.isDigit = true) := by
  rcases hsap : sapMatch serviceUrl.data with _ | svcName
  · rcases hsvc : svcMatch serviceUrl.data with _ | nm
    · rcases hod : odataMatch serviceUrl.data with _ | nm
      · rcases hp : pathnameOf serviceUrl with _ | pathname
        · have e : extractServiceId pathnameOf serviceUrl = "od" := by
            simp only [extractServiceId, hsap, hsvc, hod, hp]
          rw [e]
          exact ⟨by decide, Or.inl (by decide)⟩
        · rcases hlast : ((pathname.split (· = '/')).filter
              (fun s => s ≠ "" ∧ s ∉ noiseSegments)).getLast? with _ | lastSegment
          · have e : extractServiceId pathnameOf serviceUrl = "od" := by
              simp only [extractServiceId, hsap, hsvc, hod, hp, hlast]
            rw [e]
            exact ⟨by decide, Or.inl (by decide)⟩
          · have hcw : (trimUnderscoreEnds (collapseUnderscores
                (sanitizeWordChars lastSegment.data))).all isWordChar = true := by
              rw [List.all_eq_true]
              intro c hc
              exact List.all_eq_true.1 (all_sanitizeWordChars lastSegment.data) c
                (mem_collapseUnderscores (mem_trimUnderscoreEnds hc))
            have e : extractServiceId pathnameOf serviceUrl =
                (if (trimUnderscoreEnds (collapseUnderscores
                    (sanitizeWordChars lastSegment.data))).length > 1 then
                  (if (trimUnderscoreEnds (collapseUnderscores
                      (sanitizeWordChars lastSegment.data))).length > 8 then
                    String.mk ((trimUnderscoreEnds (collapseUnderscores
                      (sanitizeWordChars lastSegment.data))).take 8)
                  else String.mk (trimUnderscoreEnds (collapseUnderscores
                    (sanitizeWordChars lastSegment.data))))
                else "od") := by
              simp only [extractServiceId, hsap, hsvc, hod, hp, hlast]
            rw [e]
            split_ifs with h1 h8
            · exact ⟨all_word_take 8 hcw, Or.inl (by
                show ((trimUnderscoreEnds (collapseUnderscores
                  (sanitizeWordChars lastSegment.data))).take 8).length ≤ 8
                simp [List.length_take])⟩
            · refine ⟨hcw, Or.inl ?_⟩
              show (trimUnderscoreEnds (collapseUnderscores
                (sanitizeWordChars lastSegment.data))).length ≤ 8
              omega
            · exact ⟨by decide, Or.inl (by decide)⟩
      · have e : extractServiceId pathnameOf serviceUrl =
            (if nm.length > 8 then String.mk (nm.take 8) else String.mk nm) := by
          simp only [extractServiceId, hsap, hsvc, hod]
        rw [e]
        have hw := odataMatch_chars hod
        split_ifs with h8
        · exact ⟨all_word_take 8 hw, Or.inl (by
            show (nm.take 8).length ≤ 8
            simp [List.length_take])⟩
        · refine ⟨hw, Or.inl ?_⟩
          show nm.length ≤ 8
          omega
    · have e : extractServiceId pathnameOf serviceUrl =
          (if nm.length > 5 then String.mk (nm.take 5) ++ "Svc"
           else String.mk nm ++ "Svc") := by
        simp only [extractServiceId, hsap, hsvc]
      rw [e]
      have hw := svcMatch_chars hsvc
      have hsvcw : ("Svc" : String).data.all isWordChar = true := by decide
      split_ifs with h5
      · refine ⟨?_, Or.inl ?_⟩
        · show ((nm.take 5) ++ ("Svc" : String).data).all isWordChar = true
          rw [List.all_append, Bool.and_eq_true]
          exact ⟨all_word_take 5 hw, hsvcw⟩
        · show ((nm.take 5) ++ ("Svc" : String).data).length ≤ 8
          rw [List.length_append, List.length_take]
          have : ("Svc" : String).data.length = 3 := by decide
          omega
      · refine ⟨?_, Or.inl ?_⟩
        · show (nm ++ ("Svc" : String).data).all isWordChar = true
          rw [List.all_append, Bool.and_eq_true]
          exact ⟨hw, hsvcw⟩
        · show (nm ++ ("Svc" : String).data).length ≤ 8
          rw [List.length_append]
          have : ("Svc" : String).data.length = 3 := by decide
          omega
  · rcases hcmp : compactMatch svcName with _ | compact
    · have e : extractServiceId pathnameOf serviceUrl =
          (if svcName.length > 8 then String.mk (svcName.take 8)
           else String.mk svcName) := by
        simp only [extractServiceId, hsap, hcmp]
      rw [e]
      have hw := sapMatch_chars hsap
      split_ifs with h8
      · exact ⟨all_word_take 8 hw, Or.inl (by
          show (svcName.take 8).length ≤ 8
          simp [List.length_take])⟩
      · refine ⟨hw, Or.inl ?_⟩
        show svcName.length ≤ 8
        omega
    · have e : extractServiceId pathnameOf serviceUrl = String.mk compact := by
        simp only [extractServiceId, hsap, hcmp]
      rw [e]
      obtain ⟨c, ds, rfl, hu, hne, hdig⟩ := compactMatch_spec hcmp
      refine ⟨?_, Or.inr ⟨c, ds, rfl, hu, hne, hdig⟩⟩
      rw [List.all_cons, Bool.and_eq_true]
      exact ⟨isWordChar_of_upper hu, all_digit_imp_word hdig⟩

/-- Claim C6, counterexample to the claim as stated: the SAP compact rule on
`A_123456789_SRV` returns the 10-character id `A123456789`, violating the
claimed 8-character bound. -/
theorem extractServiceId_length_counterexample :
    extractServiceId noPathname "https://x/A_123456789_SRV" = "A123456789"
    ∧ 8 < (extractServiceId noPathname "https://x/A_123456789_SRV").length := by
  exact ⟨rfl, by decide⟩

/-- Claim C7, amended.  The built query-parameter list follows the fixed
order select, filter, orderby, top, skip, expand, count, search, format, but
an option is appended only when present *and truthy*: a present `skip` of 0
or `count` of `false` (and empty strings/arrays) are omitted, truthy arrays
join with commas, `top`/`skip` stringify, and a true `count` is encoded as
the literal `true` (`false` is never emitted). -/
theorem buildQueryParams_spec (options : ODataQueryOptions) :
    List.Sublist ((buildQueryParams options).map Prod.fst)
      ["$select", "$filter", "$orderby", "$top", "$skip", "$expand", "$count",
       "$search", "$format"]
    ∧ (∀ l, options.select = some l → l ≠ [] →
        ("$select", String.intercalate "," l) ∈ buildQueryParams options)
    ∧ (∀ s, options.filter = some s → s ≠ "" →
        ("$filter", s) ∈ buildQueryParams options)
    ∧ (∀ s, options.orderby = some s → s ≠ "" →
        ("$orderby", s) ∈ buildQueryParams options)
    ∧ (∀ n, options.top = some n → n ≠ 0 →
        ("$top", toString n) ∈ buildQueryParams options)
    ∧ (∀ n, options.skip = some n → n ≠ 0 →
        ("$skip", toString n) ∈ buildQueryParams options)
    ∧ (∀ l, options.expand = some l → l ≠ [] →
        ("$expand", String.intercalate "," l) ∈ buildQueryParams options)
    ∧ (options.count = some true → ("$count", "true") ∈ buildQueryParams options)
    ∧ (∀ s, options.search = some s → s ≠ "" →
        ("$search", s) ∈ buildQueryParams options)
    ∧ (∀ s, options.format = some s → s ≠ "" →
        ("$format", s) ∈ buildQueryParams options)
    ∧ (options.skip = some 0 → "$skip" ∉ (buildQueryParams options).map Prod.fst)
    ∧ (options.count = some false → "$count" ∉ (buildQueryParams options).map Prod.fst) := by
  refine ⟨?_, ?_, ?_, ?_, ?_, ?_, ?_, ?_, ?_, ?_, ?_, ?_⟩
  · simp only [buildQueryParams, List.map_append]
    have hsel : List.Sublist ((match options.select with
        | some l => if l.length ≠ 0 then [("$select", String.intercalate "," l)] else []
        | none => ([] : List (String × String))).map Prod.fst) ["$select"] := by
      rcases options.select with _ | l
      · simp
      · exact sublist_params_ite _ _
    have htop : List.Sublist ((match options.top with
        | some n => if n ≠ 0 then [("$top", toString n)] else []
        | none => ([] : List (String × String))).map Prod.fst) ["$top"] := by
      rcases options.top with _ | n
      · simp
      · exact sublist_params_ite _ _
    have hskip : List.Sublist ((match options.skip with
        | some n => if n ≠ 0 then [("$skip", toString n)] else []
        | none => ([] : List (String × String))).map Prod.fst) ["$skip"] := by
      rcases options.skip with _ | n
      · simp
      · exact sublist_params_ite _ _
    have hexp : List.Sublist ((match options.expand with
        | some l => if l.length ≠ 0 then [("$expand", String.intercalate "," l)] else []
        | none => ([] : List (String × String))).map Prod.fst) ["$expand"] := by
      rcases options.expand with _ | l
      · simp
      · exact sublist_params_ite _ _
    have hfil : List.Sublist ((if jsTruthyStr options.filter then
        [("$filter", options.filter.getD "")] else []).map Prod.fst) ["$filter"] :=
      sublist_params_ite _ _
    have hord : List.Sublist ((if jsTruthyStr options.orderby then
        [("$orderby", options.orderby.getD "")] else []).map Prod.fst) ["$orderby"] :=
      sublist_params_ite _ _
    have hcnt : List.Sublist ((if jsTruthyBool options.count then
        [("$count", "true")] else []).map Prod.fst) ["$count"] :=
      sublist_params_ite _ _
    have hsea : List.Sublist ((if jsTruthyStr options.search then
        [("$search", options.search.getD "")] else []).map Prod.fst) ["$search"] :=
      sublist_params_ite _ _
    have hfmt : List.Sublist ((if jsTruthyStr options.format then
        [("$format", options.format.getD "")] else []).map Prod.fst) ["$format"] :=
      sublist_params_ite _ _
    exact ((((((((hsel.append hfil).append hord).append htop).append
      hskip).append hexp).append hcnt).append hsea).append hfmt)
  · intro l hsel hne
    simp [buildQueryParams, hsel, hne, List.mem_append, mem_params_ite,
      List.length_eq_zero]
  · intro s hf hne
    simp [buildQueryParams, hf, hne, List.mem_append, mem_params_ite, jsTruthyStr]
  · intro s ho hne
    simp [buildQueryParams, ho, hne, List.mem_append, mem_params_ite, jsTruthyStr]
  · intro n ht hne
    simp [buildQueryParams, ht, hne, List.mem_append, mem_params_ite]
  · intro n hs hne
    simp [buildQueryParams, hs, hne, List.mem_append, mem_params_ite]
  · intro l he hne
    simp [buildQueryParams, he, hne, List.mem_append, mem_params_ite,
      List.length_eq_zero]
  · intro hc
    simp [buildQueryParams, hc, List.mem_append, mem_params_ite, jsTruthyBool]
  · intro s hs hne
    simp [buildQueryParams, hs, hne, List.mem_append, mem_params_ite, jsTruthyStr]
  · intro s hf hne
    simp [buildQueryParams, hf, hne, List.mem_append, mem_params_ite, jsTruthyStr]
  · intro h
    simp only [buildQueryParams, h, List.map_append, List.mem_append, memFst_params_ite]
    rcases options.select with _ | l <;> rcases options.top with _ | n <;>
      rcases options.expand with _ | e <;> simp [memFst_params_ite]
  · intro h
    simp only [buildQueryParams, h, List.map_append, List.mem_append, memFst_params_ite]
    rcases options.select with _ | l <;> rcases options.top with _ | n <;>
      rcases options.skip with _ | n2 <;> rcases options.expand with _ | e <;>
      simp [memFst_params_ite, jsTruthyBool]

/-- Claim C7, counterexample to the claim as stated: with a present `skip`
of 0 and a present `count` of `false` the built parameter list is empty —
the claim says both must still be encoded. -/
theorem buildQueryParams_counterexample :
    optsC7.skip = some 0 ∧ optsC7.count = some false
    ∧ buildQueryParams optsC7 = []
    ∧ "$skip" ∉ (buildQueryParams optsC7).map Prod.fst
    ∧ "$count" ∉ (buildQueryParams optsC7).map Prod.fst := by
  exact ⟨rfl, rfl, rfl, by decide, by decide⟩

/-- Witness for C7: concrete options exercising joined arrays, stringified
`top`, encoded `count` and the omitted zero `skip`. -/
theorem buildQueryParams_spec_witness :
    ("$select", "Name,ID") ∈ buildQueryParams optsC7W
    ∧ ("$top", "5") ∈ buildQueryParams optsC7W
    ∧ ("$count", "true") ∈ buildQueryParams optsC7W
    ∧ "$skip" ∉ (buildQueryParams optsC7W).map Prod.fst := by
  have h := buildQueryParams_spec optsC7W
  refine ⟨?_, ?_, ?_, ?_⟩
  · have := h.2.1 ["Name", "ID"] rfl (by decide)
    simpa using this
  · have := h.2.2.2.2.1 5 rfl (by decide)
    simpa using this
  · exact h.2.2.2.2.2.2.2.1 rfl
  · exact h.2.2.2.2.2.2.2.2.2.2.1 rfl

/-- Claim C8, confirmed.  The v2 payload `d.results/__count` and the v4
payload `value/@odata.count` normalize to the same result — data `[{a:1}]`
and integer count 1 (the v2 string count is parsed to a number) — and any
payload with neither a truthy `d` nor a truthy `value` passes through
unchanged as `data`. -/
theorem normalizeResponse_version_equivalence :
    normalizeResponse v2payC8
        = { data := .arr [.obj [("a", .num 1)]], count := some 1, nextLink := none }
    ∧ normalizeResponse v4payC8
        = { data := .arr [.obj [("a", .num 1)]], count := some 1, nextLink := none }
    ∧ normalizeResponse v2payC8 = normalizeResponse v4payC8
    ∧ ∀ respData : Json, jsTruthyJsonOpt (jget respData "d") = false →
        jsTruthyJsonOpt (jget respData "value") = false →
        (normalizeResponse respData).data = respData := by
  refine ⟨rfl, rfl, rfl, ?_⟩
  intro respData h1 h2
  rcases hjt : jsTruthyJson respData with _ | _
  · simp [normalizeResponse, hjt]
  · rcases hd : jget respData "d" with _ | dv
    · rcases hv : jget respData "value" with _ | v
      · simp [normalizeResponse, hjt, hd, normalizeValueBranch, hv]
      · have hvf : jsTruthyJson v = false := by
          have := h2; rw [hv] at this; simpa [jsTruthyJsonOpt] using this
        simp [normalizeResponse, hjt, hd, normalizeValueBranch, hv, hvf]
    · have hdf : jsTruthyJson dv = false := by
        have := h1; rw [hd] at this; simpa [jsTruthyJsonOpt] using this
      rcases hv : jget respData "value" with _ | v
      · simp [normalizeResponse, hjt, hd, hdf, normalizeValueBranch, hv]
      · have hvf : jsTruthyJson v = false := by
          have := h2; rw [hv] at this; simpa [jsTruthyJsonOpt] using this
        simp [normalizeResponse, hjt, hd, hdf, normalizeValueBranch, hv, hvf]

/-- Witness for C8: the pass-through part applied to a payload with neither
shape. -/
theorem normalizeResponse_version_equivalence_witness :
    (normalizeResponse (.obj [("x", .num 5)])).data = .obj [("x", .num 5)] :=
  normalizeResponse_version_equivalence.2.2.2 (.obj [("x", .num 5)]) rfl rfl

/-- Claim C9, amended.  `buildToolName("filter","Products","NW",default)`
is `filter_Products_for_NW`; and for every operation, target, service id and
config whose `maxToolNameLength` is at least 1, the generated name matches
`^[A-Za-z0-9_]+$` and its length is bounded by `maxToolNameLength`.  (For a
bound of 0 or less the truncation yields the empty string, which fails the
regex — hence the restriction.) -/
theorem buildToolName_spec :
    buildToolName "filter" "Products" "NW" defaultToolConfig = "filter_Products_for_NW"
    ∧ ∀ (operation target serviceId : String) (config : ToolGenerationConfig),
        1 ≤ config.maxToolNameLength →
        matchesWordPattern (buildToolName operation target serviceId config) = true
        ∧ ((buildToolName operation target serviceId config).length : Int)
            ≤ config.maxToolNameLength := by
  constructor
  · rfl
  · intro operation target serviceId config h
    simp only [buildToolName]
    refine postTrunc_spec config.maxToolNameLength h _ ?_
    split_ifs <;>
      simp [String.length_append] <;> omega

/-- Witness for C9: the universal part applied to the default
configuration. -/
theorem buildToolName_spec_witness :
    matchesWordPattern (buildToolName "filter" "Products" "NW" defaultToolConfig) = true
    ∧ ((buildToolName "filter" "Products" "NW" defaultToolConfig).length : Int) ≤ 64 := by
  have h := buildToolName_spec.2 "filter" "Products" "NW" defaultToolConfig (by decide)
  exact ⟨h.1, h.2⟩

/-- Claim C9, counterexample to the claim as stated: a config with
`maxToolNameLength = 0` produces the empty name, which does not match
`^[A-Za-z0-9_]+$`. -/
theorem buildToolName_counterexample :
    buildToolName "filter" "Products" "NW"
      { defaultToolConfig with maxToolNameLength := 0 } = ""
    ∧ matchesWordPattern "" = false := by
  exact ⟨rfl, rfl⟩

/-- Claim C10, confirmed.  When the `d` field is truthy, normalization
depends only on `d` — two payloads with the same truthy `d` normalize
identically, so top-level `value`, `@odata.count` and `@odata.nextLink` are
ignored — and `data` is selected from `d.results` by truthiness (a falsy or
absent `results` yields `d` itself; no array check is involved). -/
theorem normalizeResponse_v2_precedence (j1 j2 d : Json)
    (h1 : jget j1 "d" = some d) (h2 : jget j2 "d" = some d)
    (hd : jsTruthyJson d = true) :
    normalizeResponse j1 = normalizeResponse j2
    ∧ (jsTruthyJsonOpt (jget d "results") = false → (normalizeResponse j1).data = d)
    ∧ (∀ r, jget d "results" = some r → jsTruthyJson r = true →
        (normalizeResponse j1).data = r) := by
  have t1 := jsTruthyJson_of_jget h1
  have t2 := jsTruthyJson_of_jget h2
  refine ⟨?_, ?_, ?_⟩
  · simp [normalizeResponse, t1, t2, h1, h2, hd]
  · intro hres
    rcases hr : jget d "results" with _ | r
    · simp [normalizeResponse, t1, h1, hd, hr]
    · have hrf : jsTruthyJson r = false := by
        have := hres; rw [hr] at this; simpa [jsTruthyJsonOpt] using this
      simp [normalizeResponse, t1, h1, hd, hr, hrf]
  · intro r hr hrt
    simp [normalizeResponse, t1, h1, hd, hr, hrt]

/-- Witness for C10: a payload with truthy `d` plus v4-style top-level
fields normalizes identically to the payload without them, and its data is
the `d` object itself. -/
theorem normalizeResponse_v2_precedence_witness :
    normalizeResponse jC10a = normalizeResponse jC10b
    ∧ (normalizeResponse jC10a).data = jC10d := by
  have h := normalizeResponse_v2_precedence jC10a jC10b jC10d rfl rfl rfl
  exact ⟨h.1, h.2.1 rfl⟩

/-- Witness for C4: the example theorem instantiated with the trivial
URL-parser oracle (the fallback branch is not reached on either URL). -/
theorem extractServiceId_examples_witness :
    extractServiceId noPathname "https://x/sap/opu/odata/sap/ZODD_000_SRV" = "Z000"
    ∧ extractServiceId noPathname "https://x/V4/Northwind/Northwind.svc" = "NorthSvc" :=
  extractServiceId_examples noPathname

/-- Witness for C6: the safety theorem instantiated at a concrete URL. -/
theorem extractServiceId_safety_witness :
    (extractServiceId noPathname "https://host/odata/Products").data.all isWordChar = true
    ∧ ((extractServiceId noPathname "https://host/odata/Products").length ≤ 8
       ∨ ∃ c ds,
          (extractServiceId noPathname "https://host/odata/Products").data = c :: ds
           ∧ isUpperAZ c = true ∧ ds ≠ [] ∧ ds.all Char.isDigit = true) :=
  extractServiceId_safety noPathname "https://host/odata/Products"

end McpNest
